import Mathlib

/-!
The mini-shell: the command-tree evaluator of `src/cmd.c`.

A shallow embedding of `cmd.c` and the properties of its evaluator.

Modelling conventions.

* A C string is a `String`; its `strlen` is `String.utf8ByteSize`.
* `word_t` is a linked structure with two chains.  The `next_part` chain of a
  word is the list `word_t.next_part`; a `next_word` chain is a `List word_t`
  (`NULL` is `[]`).
* A process owns its environment and working directory (`World.env`,
  `World.cwd`).  `World.trace` is the system-wide, append-only record of the
  calls issued by the shell and by the children it forks, in the order in
  which they happen.  The entry `Event.parse_command c` is a ghost entry: it
  records that `parse_command` was entered on `c`.
* `fork` runs the child to its end on a copy of the caller's environment and
  working directory, at the point of the `fork` call; what the child does to
  its copy is lost, its trace is kept.  For `run_in_parallel` this is one of
  the schedules the operating system may choose.
* Everything outside `cmd.c` is a field of `Host`: the constants of the
  absent headers, `get_argv`, and the behaviour of the operating system
  (which calls fail, what `chdir` does, what an executed program returns).
* `DIE(cond, msg)` ends the calling process: `Result.die`.  A `strcat` past
  the end of a `MAX_PATH` buffer is undefined behaviour: `Result.undefined`.
  Both keep the trace up to that point.
* The calls whose result `cmd.c` does not check (`waitpid`, `write`) are taken
  to succeed, and an executed program is taken to end.
* The arguments `level` and `father` of the C functions are never read by
  `cmd.c`; they are left out.
-/

namespace MiniShell

/-! ## Constants -/

/-- The constant `READ` (line 16). -/
def READ : Nat := 0

/-- The constant `WRITE` (line 17). -/
def WRITE : Nat := 1

/-- The constant `MAX_PATH` (line 18). -/
def MAX_PATH : Nat := 256

/-- The constant `EXIT_SUCCESS` of `stdlib.h`. -/
def EXIT_SUCCESS : Int := 0

/-- The constant `EXIT_FAILURE` of `stdlib.h`. -/
def EXIT_FAILURE : Int := 1

/-- The flag `O_RDONLY` of `fcntl.h` (Linux value). -/
def O_RDONLY : Nat := 0

/-- The flag `O_WRONLY` of `fcntl.h` (Linux value). -/
def O_WRONLY : Nat := 1

/-- The flag `O_CREAT` of `fcntl.h` (Linux value, octal 100). -/
def O_CREAT : Nat := 64

/-- The flag `O_TRUNC` of `fcntl.h` (Linux value, octal 1000). -/
def O_TRUNC : Nat := 512

/-- The flag `O_APPEND` of `fcntl.h` (Linux value, octal 2000). -/
def O_APPEND : Nat := 1024

/-! ## The command tree -/

/-- One fragment of a word: a literal (`expand = false`) or the name of an
environment variable (`expand = true`). -/
structure Part where
  string : String
  expand : Bool
  deriving DecidableEq, Repr

/-- The C `word_t`: the first fragment (`string`, `expand`) and the rest of its
`next_part` chain. -/
structure word_t where
  string : String
  expand : Bool
  next_part : List Part
  deriving DecidableEq, Repr

/-- All fragments of a word, the first one included: what the loops
`for (part = w; part; part = part->next_part)` visit. -/
def word_t.parts (w : word_t) : List Part :=
  ⟨w.string, w.expand⟩ :: w.next_part

/-- The C `simple_command_t`.  `params` is the `next_word` chain of arguments;
`in_`, `out`, `err` are the redirection words (`none` is `NULL`). -/
structure simple_command_t where
  verb : word_t
  params : List word_t
  in_ : Option word_t
  out : Option word_t
  err : Option word_t
  io_flags : Nat
  deriving DecidableEq, Repr

/-- The operator tags of an inner node.  `OP_DUMMY` stands for every tag that
`parse_command` does not name (its `default:` branch). -/
inductive operator_t where
  | OP_SEQUENTIAL
  | OP_PARALLEL
  | OP_CONDITIONAL_NZERO
  | OP_CONDITIONAL_ZERO
  | OP_PIPE
  | OP_DUMMY
  deriving DecidableEq, Repr

/-- The C `command_t`: a leaf (`op == OP_NONE`, with `scmd`) or an inner node
with its two operands. -/
inductive command_t where
  | simple (scmd : simple_command_t)
  | binary (op : operator_t) (cmd1 cmd2 : command_t)
  deriving DecidableEq, Repr

/-! ## Processes, descriptors and the trace -/

/-- A file descriptor, named by what it refers to. -/
inductive Fd where
  | STDIN_FILENO
  | STDOUT_FILENO
  | STDERR_FILENO
  | file (path : String)
  | copy (fd : Fd)
  | pipe_fd (side : Nat)
  | unset
  deriving DecidableEq, Repr

/-- One entry of the trace. -/
inductive Event where
  | parse_command (c : command_t)
  | fork
  | waitpid
  | exit (status : Int)
  | pipe
  | sys_open (path : String) (flags : Nat)
  | dup (fd : Fd)
  | dup2 (oldfd newfd : Fd)
  | close (fd : Fd)
  | chdir (path : String)
  | getcwd
  | setenv (name value : String)
  | write (fd : Fd) (buf : String)
  | execvp (file : String) (argv : List String)
  deriving DecidableEq, Repr

/-- The state a piece of the shell runs in. -/
structure World where
  env : List (String × String)
  cwd : String
  trace : List Event
  deriving DecidableEq, Repr

/-- How a piece of the shell ends inside the process that runs it. -/
inductive Result (α : Type) where
  | ok (a : α) (w : World)
  | die (trace : List Event)
  | undefined (trace : List Event)
  deriving DecidableEq, Repr

/-- The trace at the end of a computation. -/
def Result.trace {α : Type} : Result α → List Event
  | .ok _ w => w.trace
  | .die t => t
  | .undefined t => t

/-- The value a computation returns, when it returns. -/
def Result.status {α : Type} : Result α → Option α
  | .ok a _ => some a
  | .die _ => none
  | .undefined _ => none

/-- What lies outside `cmd.c`. -/
structure Host where
  /-- The constant `SHELL_EXIT` of `cmd.h`. -/
  SHELL_EXIT : Int
  /-- The constant `IO_OUT_APPEND` of `parser.h`. -/
  IO_OUT_APPEND : Nat
  /-- The constant `IO_ERR_APPEND` of `parser.h`. -/
  IO_ERR_APPEND : Nat
  /-- The status with which `DIE` of `utils.h` ends the process. -/
  DIE_STATUS : Int
  /-- The function `get_argv` of `utils.c`: the argument vector of a simple
  command, in an environment. -/
  get_argv : simple_command_t → List (String × String) → List String
  /-- Whether a call of the fatal tier succeeds, given the trace so far. -/
  sys_ok : Event → List Event → Bool
  /-- The call `chdir(path)` from a working directory, given the trace so far:
  the new working directory, or `none` when the call fails. -/
  chdir : String → String → List Event → Option String
  /-- The call `execvp(file, argv)`: `none` when the call fails, else the status
  with which the program ends. -/
  execvp : String → List String → World → Option Int

/-- A computation of the shell. -/
def Run (α : Type) : Type := World → Result α

/-- Return a value, changing nothing. -/
def Run.pure {α : Type} (a : α) : Run α := fun w => .ok a w

/-- Sequencing: the rest runs only when the first part returns. -/
def Run.bind {α β : Type} (p : Run α) (k : α → Run β) : Run β := fun w =>
  match p w with
  | .ok a w1 => k a w1
  | .die t => .die t
  | .undefined t => .undefined t

instance : Monad Run where
  pure := Run.pure
  bind := Run.bind

/-- Append an entry to the trace (a ghost entry, or a call whose result the
source does not check). -/
def emit (e : Event) : Run Unit := fun w =>
  .ok () { w with trace := w.trace ++ [e] }

/-- A call followed by `DIE(ret < 0, ...)`. -/
def sys (H : Host) (e : Event) : Run Unit := fun w =>
  if H.sys_ok e w.trace then .ok () { w with trace := w.trace ++ [e] }
  else .die (w.trace ++ [e])

/-- The call `getenv(name)`: `none` is `NULL`. -/
def getenv : List (String × String) → String → Option String
  | [], _ => none
  | (k, v) :: rest, name => if k = name then some v else getenv rest name

/-- The table after a successful `setenv(name, value, 1)`. -/
def setenv : List (String × String) → String → String → List (String × String)
  | [], name, value => [(name, value)]
  | (k, v) :: rest, name, value =>
    if k = name then (k, value) :: rest else (k, v) :: setenv rest name value

/-- The call `setenv(name, value, 1)` followed by `DIE(ret < 0, ...)`.  The call
fails on an empty name and on a name that holds `=`. -/
def sys_setenv (H : Host) (name value : String) : Run Unit := fun w =>
  if name ≠ "" ∧ '=' ∉ name.data ∧ H.sys_ok (.setenv name value) w.trace = true then
    .ok () { w with env := setenv w.env name value,
                    trace := w.trace ++ [.setenv name value] }
  else .die (w.trace ++ [.setenv name value])

/-- The call `strcat(dst, src)` into a buffer of `cap` bytes: `none` when the
result and its terminator do not fit. -/
def strcat (cap : Nat) (dst src : String) : Option String :=
  if (dst ++ src).utf8ByteSize + 1 ≤ cap then some (dst ++ src) else none

/-- The loop of `cmd.c` lines 48-62 and 193-207: append the value of every
fragment to a `MAX_PATH` buffer. -/
def concat_parts (env : List (String × String)) : List Part → String → Option String
  | [], buf => some buf
  | part :: rest, buf =>
    let substring := if part.expand = true then (getenv env part.string).getD "" else part.string
    match strcat MAX_PATH buf substring with
    | none => none
    | some buf1 => concat_parts env rest buf1

/-- Run the fragment loop in the current environment. -/
def build_string (parts : List Part) : Run String := fun w =>
  match concat_parts w.env parts "" with
  | none => .undefined w.trace
  | some s => .ok s w

/-- The handle `fork` gives the parent: the status `WEXITSTATUS` will read
once the child is waited for. -/
structure pid_t where
  wexitstatus : Int
  deriving DecidableEq, Repr

/-- The call `fork()` followed by `DIE(pid < 0, ...)`, with the child's branch
`child`, which ends in `exit(r)` for the value `r` it yields. -/
def fork (H : Host) (child : Run Int) : Run pid_t := fun w =>
  if H.sys_ok .fork w.trace then
    match child { w with trace := w.trace ++ [.fork] } with
    | .ok r wc => .ok ⟨r % 256⟩ { w with trace := wc.trace ++ [.exit r] }
    | .die t => .ok ⟨H.DIE_STATUS % 256⟩ { w with trace := t }
    | .undefined t => .undefined t
  else .die (w.trace ++ [.fork])

/-- The call `waitpid(pid, &status, 0)` and `WEXITSTATUS(status)`. -/
def waitpid (pid : pid_t) : Run Int := fun w =>
  .ok pid.wexitstatus { w with trace := w.trace ++ [.waitpid] }

/-- The conversion of a C `bool` to `int`. -/
def bool_to_int (b : Bool) : Int := if b then 1 else 0

/-! ## The functions of `cmd.c` -/

/-- The function `shell_cd` (lines 24-33). -/
def shell_cd (H : Host) (dir : List word_t) : Run Bool := fun w =>
  match dir with
  | [] => .ok true w
  | _ :: _ :: _ => .ok true w
  | [d] =>
    match H.chdir w.cwd d.string w.trace with
    | none => .ok false { w with trace := w.trace ++ [.chdir d.string] }
    | some cwd1 => .ok true { w with cwd := cwd1, trace := w.trace ++ [.chdir d.string] }

/-- The call `getcwd(NULL, MAX_PATH)` followed by `DIE(!path, ...)`: it fails
when the path and its terminator do not fit `MAX_PATH` bytes. -/
def sys_getcwd (H : Host) : Run String := fun w =>
  if w.cwd.utf8ByteSize + 1 ≤ MAX_PATH ∧ H.sys_ok .getcwd w.trace = true then
    .ok w.cwd { w with trace := w.trace ++ [.getcwd] }
  else .die (w.trace ++ [.getcwd])

/-- A `strcat` into a `MAX_PATH` buffer, as a step of a computation. -/
def run_strcat (dst src : String) : Run String := fun w =>
  match strcat MAX_PATH dst src with
  | none => .undefined w.trace
  | some s => .ok s w

/-- The redirection block of `shell_pwd` (lines 42-78). -/
def pwd_redirect (H : Host) (s : simple_command_t) : Run Unit :=
  match s.out with
  | some out => do
    let out_file ← build_string out.parts
    sys H (.sys_open out_file (O_WRONLY ||| O_CREAT ||| O_TRUNC))
    sys H (.dup .STDOUT_FILENO)
    sys H (.dup2 (.file out_file) .STDOUT_FILENO)
    sys H (.close (.file out_file))
  | none => pure ()

/-- The reset block of `shell_pwd` (lines 93-99). -/
def pwd_restore (H : Host) (s : simple_command_t) : Run Unit :=
  match s.out with
  | some _ => do
    sys H (.dup2 (.copy .STDOUT_FILENO) .STDOUT_FILENO)
    sys H (.close (.copy .STDOUT_FILENO))
  | none => pure ()

/-- The function `shell_pwd` (lines 38-102). -/
def shell_pwd (H : Host) (s : simple_command_t) : Run Int := do
  pwd_redirect H s
  let path ← sys_getcwd H
  let path ← run_strcat path "\n"
  emit (.write .STDOUT_FILENO path)
  pwd_restore H s
  pure EXIT_SUCCESS

/-- The first block of `redirect_child_process` (lines 111-117): the value of
`fd_file` after it. -/
def redirect_in (H : Host) (s : simple_command_t) (fd_file : Fd) : Run Fd :=
  match s.in_ with
  | some i => do
    sys H (.sys_open i.string O_RDONLY)
    sys H (.dup2 (.file i.string) .STDIN_FILENO)
    pure (.file i.string)
  | none => pure fd_file

/-- The value of `open_modes` after lines 120-121. -/
def out_modes (H : Host) (s : simple_command_t) (open_modes : Nat) : Nat :=
  if s.io_flags = H.IO_OUT_APPEND then O_WRONLY ||| O_CREAT ||| O_APPEND else open_modes

/-- The second block of `redirect_child_process` (lines 119-128): the values of
`fd_file` and `open_modes` after it. -/
def redirect_out (H : Host) (s : simple_command_t) (fd_file : Fd) (open_modes : Nat) :
    Run (Fd × Nat) :=
  match s.out with
  | some o => do
    sys H (.sys_open o.string (out_modes H s open_modes))
    sys H (.dup2 (.file o.string) .STDOUT_FILENO)
    pure (.file o.string, out_modes H s open_modes)
  | none => pure (fd_file, open_modes)

/-- The value of `open_modes` after lines 131-132. -/
def err_modes (H : Host) (s : simple_command_t) (open_modes : Nat) : Nat :=
  if s.io_flags = H.IO_ERR_APPEND then O_WRONLY ||| O_CREAT ||| O_APPEND else open_modes

/-- The test of line 134:
`!s->out || (s->out && strcmp(s->out->string, s->err->string))`. -/
def err_differs (s : simple_command_t) (e : word_t) : Bool :=
  match s.out with
  | none => true
  | some o => decide (o.string ≠ e.string)

/-- Lines 134-137: the value of `fd_file` after them. -/
def err_open (H : Host) (s : simple_command_t) (e : word_t) (fd_file : Fd)
    (open_modes : Nat) : Run Fd :=
  if err_differs s e = true then do
    sys H (.sys_open e.string open_modes)
    pure (.file e.string)
  else pure fd_file

/-- The third block of `redirect_child_process` (lines 130-141): the value of
`fd_file` after it. -/
def redirect_err (H : Host) (s : simple_command_t) (fd_file : Fd) (open_modes : Nat) :
    Run Fd :=
  match s.err with
  | some e => do
    let fd_file1 ← err_open H s e fd_file (err_modes H s open_modes)
    sys H (.dup2 fd_file1 .STDERR_FILENO)
    pure fd_file1
  | none => pure fd_file

/-- The function `redirect_child_process` (lines 107-145). -/
def redirect_child_process (H : Host) (s : simple_command_t) : Run Unit := do
  let fd_file ← redirect_in H s .unset
  let out_state ← redirect_out H s fd_file (O_WRONLY ||| O_CREAT ||| O_TRUNC)
  let fd_file ← redirect_err H s out_state.1 out_state.2
  sys H (.close fd_file)

/-- Lines 225-226. -/
def child_redirect (H : Host) (s : simple_command_t) : Run Unit :=
  if s.in_.isSome ∨ s.out.isSome ∨ s.err.isSome then redirect_child_process H s
  else pure ()

/-- The call `execvp(file, argv)`: the status the program ends with, or `none`
when the call returns. -/
def sys_execvp (H : Host) (file : String) (argv : List String) : Run (Option Int) := fun w =>
  .ok (H.execvp file argv w) { w with trace := w.trace ++ [.execvp file argv] }

/-- The call `get_argv(s, &param_size)` in the environment of the process. -/
def run_get_argv (H : Host) (s : simple_command_t) : Run (List String) := fun w =>
  .ok (H.get_argv s w.env) w

/-- Lines 234-243: the message of a failed `execvp`; the value is the status
given to `exit`. -/
def exec_failed (s : simple_command_t) : Run Int := do
  let string ← run_strcat "" "Execution failed for \x27"
  let string ← run_strcat string s.verb.string
  let string ← run_strcat string "\x27\n"
  emit (.write .STDERR_FILENO string)
  pure EXIT_FAILURE

/-- The child's branch of `parse_simple` (lines 222-243); the value it yields
is the status the child process ends with. -/
def parse_simple_child (H : Host) (s : simple_command_t) : Run Int := do
  child_redirect H s
  let argv ← run_get_argv H s
  let image ← sys_execvp H s.verb.string argv
  match image with
  | some status => pure status
  | none => exec_failed s

/-- Lines 164-172 of `parse_simple`: the output file of a redirected `cd`. -/
def cd_create_out (H : Host) (s : simple_command_t) : Run Unit :=
  match s.out with
  | some out => do
    sys H (.sys_open out.string (O_WRONLY ||| O_CREAT ||| O_TRUNC))
    sys H (.close (.file out.string))
  | none => pure ()

/-- Lines 216-249 of `parse_simple`: an external command. -/
def run_external (H : Host) (s : simple_command_t) : Run Int := do
  let pid ← fork H (parse_simple_child H s)
  waitpid pid

/-- Lines 184-213 of `parse_simple`: the assignment of `value_parts` to the
variable named by the verb. -/
def assign (H : Host) (s : simple_command_t) (value_parts : List Part) : Run Int := do
  let variable_value ← build_string value_parts
  sys_setenv H s.verb.string variable_value
  pure EXIT_SUCCESS

/-- The function `parse_simple` (lines 151-250).  `s` is not `NULL`. -/
def parse_simple (H : Host) (s : simple_command_t) : Run Int :=
  if s.verb.string = "exit" ∨ s.verb.string = "quit" then
    pure H.SHELL_EXIT
  else if s.verb.string = "cd" then do
    cd_create_out H s
    let changed ← shell_cd H s.params
    if changed = false then pure EXIT_FAILURE else pure EXIT_SUCCESS
  else if s.verb.string = "pwd" then
    shell_pwd H s
  else
    match s.verb.next_part with
    | eq_part :: value_parts =>
      if eq_part.string = "=" then assign H s value_parts else run_external H s
    | [] => run_external H s

/-- The function `run_in_sequential` (lines 255-261); `p1`, `p2` are
`parse_command(cmd1, ...)` and `parse_command(cmd2, ...)`. -/
def run_in_sequential (p1 p2 : Run Int) : Run Int := do
  let _ ← p1
  p2

/-- The function `run_in_parallel` (lines 266-289). -/
def run_in_parallel (H : Host) (p1 p2 : Run Int) : Run Bool := do
  let pid1 ← fork H p1
  let pid2 ← fork H p2
  let status1 ← waitpid pid1
  let status2 ← waitpid pid2
  pure (decide (status1 ≠ 0) && decide (status2 ≠ 0))

/-- The function `run_if_first_fails` (lines 294-301). -/
def run_if_first_fails (p1 p2 : Run Int) : Run Int := do
  if (← p1) = EXIT_SUCCESS then
    pure EXIT_SUCCESS
  else
    p2

/-- The function `run_if_first_succeeds` (lines 306-313). -/
def run_if_first_succeeds (p1 p2 : Run Int) : Run Int := do
  if (← p1) = EXIT_FAILURE then
    pure EXIT_FAILURE
  else
    p2

/-- The first child of `run_on_pipe` (lines 332-359). -/
def pipe_child1 (H : Host) (p1 : Run Int) : Run Int := do
  sys H (.dup .STDOUT_FILENO)
  sys H (.dup2 (.pipe_fd WRITE) .STDOUT_FILENO)
  sys H (.close (.pipe_fd READ))
  sys H (.close (.pipe_fd WRITE))
  let ret1 ← p1
  sys H (.dup2 (.copy .STDOUT_FILENO) .STDOUT_FILENO)
  sys H (.close (.copy .STDOUT_FILENO))
  pure ret1

/-- The second child of `run_on_pipe` (lines 369-396). -/
def pipe_child2 (H : Host) (p2 : Run Int) : Run Int := do
  sys H (.dup .STDIN_FILENO)
  sys H (.dup2 (.pipe_fd READ) .STDIN_FILENO)
  sys H (.close (.pipe_fd READ))
  sys H (.close (.pipe_fd WRITE))
  let ret2 ← p2
  sys H (.dup2 (.copy .STDIN_FILENO) .STDIN_FILENO)
  sys H (.close (.copy .STDIN_FILENO))
  pure ret2

/-- The function `run_on_pipe` (lines 318-413). -/
def run_on_pipe (H : Host) (p1 p2 : Run Int) : Run Bool := do
  sys H .pipe
  let pid1 ← fork H (pipe_child1 H p1)
  let _ ← waitpid pid1
  let pid2 ← fork H (pipe_child2 H p2)
  sys H (.close (.pipe_fd READ))
  sys H (.close (.pipe_fd WRITE))
  let status ← waitpid pid2
  pure (decide (status ≠ 0))

/-- The function `parse_command` (lines 418-442). -/
def parse_command (H : Host) : command_t → Run Int
  | .simple scmd => do
    emit (.parse_command (.simple scmd))
    parse_simple H scmd
  | .binary op cmd1 cmd2 => do
    emit (.parse_command (.binary op cmd1 cmd2))
    match op with
    | .OP_SEQUENTIAL => run_in_sequential (parse_command H cmd1) (parse_command H cmd2)
    | .OP_PARALLEL => do
      let both ← run_in_parallel H (parse_command H cmd1) (parse_command H cmd2)
      pure (bool_to_int both)
    | .OP_CONDITIONAL_NZERO => run_if_first_fails (parse_command H cmd1) (parse_command H cmd2)
    | .OP_CONDITIONAL_ZERO =>
      run_if_first_succeeds (parse_command H cmd1) (parse_command H cmd2)
    | .OP_PIPE => do
      let last ← run_on_pipe H (parse_command H cmd1) (parse_command H cmd2)
      pure (bool_to_int last)
    | .OP_DUMMY => pure H.SHELL_EXIT

/-! ## Notions used to state the properties -/

/-- The world right after `parse_command` has been entered on `c`. -/
def entered (c : command_t) (w : World) : World :=
  { w with trace := w.trace ++ [.parse_command c] }

/-- After the point `w1` of the run that ends in `r`, `parse_command` was
entered on `c`. -/
def evaluated_after {α : Type} (c : command_t) (w1 : World) (r : Result α) : Prop :=
  Event.parse_command c ∈ r.trace.drop w1.trace.length

instance {α : Type} (c : command_t) (w1 : World) (r : Result α) :
    Decidable (evaluated_after c w1 r) := by
  unfold evaluated_after
  infer_instance

/-- After the point `w` of the run that ends in `r`, a process was forked. -/
def forked_after {α : Type} (w : World) (r : Result α) : Prop :=
  Event.fork ∈ r.trace.drop w.trace.length

instance {α : Type} (w : World) (r : Result α) : Decidable (forked_after w r) := by
  unfold forked_after
  infer_instance

/-- The entry is a `fork`. -/
def Event.is_fork : Event → Bool
  | .fork => true
  | _ => false

/-- The entry is a `setenv`. -/
def Event.is_setenv : Event → Bool
  | .setenv _ _ => true
  | _ => false

/-- After the point `w` of the run that ends in `r`, `setenv` was called. -/
def setenv_after {α : Type} (w : World) (r : Result α) : Prop :=
  ∃ e ∈ r.trace.drop w.trace.length, e.is_setenv = true

/-- A computation only appends to the trace, and every entry it appends
satisfies `P`. -/
def Appends {α : Type} (P : Event → Prop) (p : Run α) : Prop :=
  ∀ w, ∃ rest, (p w).trace = w.trace ++ rest ∧ ∀ e ∈ rest, P e

/-- A computation only appends to the trace. -/
def Extends {α : Type} (p : Run α) : Prop :=
  Appends (fun _ => True) p

/-- The value of one fragment in an environment, in the words of the
specification: a literal is its string, a reference is the value of the
variable, empty when the variable is not set. -/
def Part.value (env : List (String × String)) (part : Part) : String :=
  if part.expand = true then
    match getenv env part.string with
    | some v => v
    | none => ""
  else part.string

/-- The resolved value of a chain of fragments, in the words of the
specification: the concatenation, in order, of the values of its fragments. -/
def resolve (env : List (String × String)) : List Part → String
  | [] => ""
  | part :: rest => part.value env ++ resolve env rest

/-- The leaf is `exit` or `quit` (lines 155-156). -/
def is_exit (s : simple_command_t) : Prop :=
  s.verb.string = "exit" ∨ s.verb.string = "quit"

/-- The relation `ExitReached H c w w1`: the evaluation of `c` from `w` arrives, through
right operands of Sequential, ConditionalOr and ConditionalAnd nodes only, at
an `exit` or `quit` leaf; `w1` is the world at the moment `parse_command` has
been entered on that leaf. -/
inductive ExitReached (H : Host) : command_t → World → World → Prop where
  | leaf (s : simple_command_t) (w : World) (h : is_exit s) :
      ExitReached H (.simple s) w (entered (.simple s) w)
  | sequential (cmd1 cmd2 : command_t) (w w1 w2 : World) (r : Int)
      (h1 : parse_command H cmd1 (entered (.binary .OP_SEQUENTIAL cmd1 cmd2) w) = .ok r w1)
      (h2 : ExitReached H cmd2 w1 w2) :
      ExitReached H (.binary .OP_SEQUENTIAL cmd1 cmd2) w w2
  | conditional_nzero (cmd1 cmd2 : command_t) (w w1 w2 : World) (r : Int)
      (h1 : parse_command H cmd1 (entered (.binary .OP_CONDITIONAL_NZERO cmd1 cmd2) w)
        = .ok r w1)
      (hr : r ≠ EXIT_SUCCESS)
      (h2 : ExitReached H cmd2 w1 w2) :
      ExitReached H (.binary .OP_CONDITIONAL_NZERO cmd1 cmd2) w w2
  | conditional_zero (cmd1 cmd2 : command_t) (w w1 w2 : World) (r : Int)
      (h1 : parse_command H cmd1 (entered (.binary .OP_CONDITIONAL_ZERO cmd1 cmd2) w)
        = .ok r w1)
      (hr : r ≠ EXIT_FAILURE)
      (h2 : ExitReached H cmd2 w1 w2) :
      ExitReached H (.binary .OP_CONDITIONAL_ZERO cmd1 cmd2) w w2

/-! ## A sample host and sample inputs -/

/-- A host on which no call of the fatal tier fails, every `chdir` succeeds,
and the programs `true`, `false` and `grep` end with the statuses 0, 1 and 2;
no other program exists.  `SHELL_EXIT` is -100 and the two append flags are
the bits 1 and 2. -/
def host0 : Host where
  SHELL_EXIT := -100
  IO_OUT_APPEND := 1
  IO_ERR_APPEND := 2
  DIE_STATUS := 1
  get_argv := fun s _ => s.verb.string :: s.params.map (fun p => p.string)
  sys_ok := fun _ _ => true
  chdir := fun _ path _ => some path
  execvp := fun file _ _ =>
    if file = "true" then some 0
    else if file = "false" then some 1
    else if file = "grep" then some 2
    else none

/-- A word made of one literal fragment. -/
def lit (s : String) : word_t := ⟨s, false, []⟩

/-- A simple command without redirections, all of whose words are literals. -/
def scmd (verb : String) (params : List String) : simple_command_t :=
  ⟨lit verb, params.map lit, none, none, none, 0⟩

/-- A leaf of the command tree. -/
def cmd (verb : String) (params : List String) : command_t :=
  .simple (scmd verb params)

/-- A world with an empty environment and an empty trace. -/
def w0 : World := ⟨[], "/", []⟩

/-- The leaves on which `parse_command` was entered during a run, in order. -/
def Result.leaves {α : Type} (r : Result α) : List simple_command_t :=
  r.trace.filterMap fun e =>
    match e with
    | .parse_command (.simple s) => some s
    | _ => none

/-- The world `w0` after the evaluation of the leaf `false` on `host0`. -/
def w_false : World :=
  ⟨[], "/", [.parse_command (cmd "false" []), .fork, .execvp "false" ["false"], .exit 1,
    .waitpid]⟩

/-- The world `w_false` after the evaluation of the leaf `true` on `host0`. -/
def w_false_true : World :=
  ⟨[], "/", [.parse_command (cmd "false" []), .fork, .execvp "false" ["false"], .exit 1,
    .waitpid, .parse_command (cmd "true" []), .fork, .execvp "true" ["true"], .exit 0,
    .waitpid]⟩

/-- The tree `false || exit`. -/
def false_or_exit : command_t :=
  .binary .OP_CONDITIONAL_NZERO (cmd "false" []) (cmd "exit" [])

/-- The tree `true ; (false || exit)`. -/
def nested_exit : command_t :=
  .binary .OP_SEQUENTIAL (cmd "true" []) false_or_exit

/-- The world after the leaf `true` of `nested_exit`, from `w0` on `host0`. -/
def w_nested_true : World :=
  ⟨[], "/", [.parse_command nested_exit, .parse_command (cmd "true" []), .fork,
    .execvp "true" ["true"], .exit 0, .waitpid]⟩

/-- The world after the leaf `false` of `nested_exit`, from `w0` on `host0`. -/
def w_nested_false : World :=
  ⟨[], "/", [.parse_command nested_exit, .parse_command (cmd "true" []), .fork,
    .execvp "true" ["true"], .exit 0, .waitpid, .parse_command false_or_exit,
    .parse_command (cmd "false" []), .fork, .execvp "false" ["false"], .exit 1, .waitpid]⟩

/-- The world in which the `exit` leaf of `nested_exit` is entered, from `w0` on
`host0`. -/
def w_nested_exit : World :=
  ⟨[], "/", [.parse_command nested_exit, .parse_command (cmd "true" []), .fork,
    .execvp "true" ["true"], .exit 0, .waitpid, .parse_command false_or_exit,
    .parse_command (cmd "false" []), .fork, .execvp "false" ["false"], .exit 1, .waitpid,
    .parse_command (cmd "exit" [])]⟩

/-- The world `w0` after the evaluation of the leaf `grep` on `host0`. -/
def w_grep : World :=
  ⟨[], "/", [.parse_command (cmd "grep" []), .fork, .execvp "grep" ["grep"], .exit 2,
    .waitpid]⟩

/-- The tree `true | grep`. -/
def true_pipe_grep : command_t :=
  .binary .OP_PIPE (cmd "true" []) (cmd "grep" [])

/-- The command `cmd >> o 2>> e` for the program `true`: both redirections in
append mode. -/
def append_both : simple_command_t :=
  ⟨lit "true", [], none, some (lit "o"), some (lit "e"),
    host0.IO_OUT_APPEND ||| host0.IO_ERR_APPEND⟩

/-- The command `cmd >> o 2> e` for the program `true`: only the standard
output in append mode. -/
def append_out_only : simple_command_t :=
  ⟨lit "true", [], none, some (lit "o"), some (lit "e"), host0.IO_OUT_APPEND⟩

/-- The first fragment of the verb is the name of a builtin (lines 155, 156,
160 and 180). -/
def is_builtin (s : simple_command_t) : Prop :=
  s.verb.string = "exit" ∨ s.verb.string = "quit" ∨ s.verb.string = "cd" ∨
    s.verb.string = "pwd"

/-- A value of 256 bytes. -/
def long_value : String := String.mk (List.replicate 256 'a')

/-- The assignment `X=aaa...a` with a value of 256 bytes. -/
def assign_long : simple_command_t :=
  ⟨⟨"X", false, [⟨"=", false⟩, ⟨long_value, false⟩]⟩, [], none, none, none, 0⟩

/-- The assignment `X=x$X$Y`. -/
def assign_x : simple_command_t :=
  ⟨⟨"X", false, [⟨"=", false⟩, ⟨"x", false⟩, ⟨"X", true⟩, ⟨"Y", true⟩]⟩, [], none, none,
    none, 0⟩

/-- A world in which `X` is `1` and `Y` is not set. -/
def w_x : World := ⟨[("X", "1")], "/", []⟩

/-- The command `cd=x`: the verb has the fragments `cd`, `=` and `x`, all
literals. -/
def cd_equals_x : simple_command_t :=
  ⟨⟨"cd", false, [⟨"=", false⟩, ⟨"x", false⟩]⟩, [], none, none, none, 0⟩

/-- What `parse_simple` appends to the trace for a `cd` that has an output
redirection (lines 164-172). -/
def cd_out_trace (s : simple_command_t) : List Event :=
  match s.out with
  | some out =>
    [.sys_open out.string (O_WRONLY ||| O_CREAT ||| O_TRUNC), .close (.file out.string)]
  | none => []

/-- The command `cd a b > f`. -/
def cd_a_b_to_f : simple_command_t :=
  ⟨lit "cd", [lit "a", lit "b"], none, some (lit "f"), none, 0⟩

/-- The command `exit=x`: the verb has the fragments `exit`, `=` and `x`, all
literals. -/
def exit_equals_x : simple_command_t :=
  ⟨⟨"exit", false, [⟨"=", false⟩, ⟨"x", false⟩]⟩, [], none, none, none, 0⟩

/-- The command `quit=x`: the verb has the fragments `quit`, `=` and `x`, all
literals. -/
def quit_equals_x : simple_command_t :=
  ⟨⟨"quit", false, [⟨"=", false⟩, ⟨"x", false⟩]⟩, [], none, none, none, 0⟩

/-- The command `true$X`: the verb has the literal fragment `true` and the
expansion of `X`. -/
def true_dollar_x : simple_command_t :=
  ⟨⟨"true", false, [⟨"X", true⟩]⟩, [], none, none, none, 0⟩

/-- The assignment `X=x`, all fragments literals. -/
def x_equals_x : simple_command_t :=
  ⟨⟨"X", false, [⟨"=", false⟩, ⟨"x", false⟩]⟩, [], none, none, none, 0⟩

/-! ## Basic facts about computations -/

@[simp] theorem pure_apply {α : Type} (a : α) (w : World) :
    (pure a : Run α) w = .ok a w := rfl

@[simp] theorem bind_apply {α β : Type} (p : Run α) (k : α → Run β) (w : World) :
    (p >>= k) w =
      match p w with
      | .ok a w1 => k a w1
      | .die t => .die t
      | .undefined t => .undefined t := rfl

/-! ## What a computation appends to the trace -/

theorem appends_mono {α : Type} {P Q : Event → Prop} {p : Run α} (h : Appends P p)
    (hPQ : ∀ e, P e → Q e) : Appends Q p := by
  intro w
  obtain ⟨rest, h1, h2⟩ := h w
  exact ⟨rest, h1, fun e he => hPQ e (h2 e he)⟩

theorem appends_extends {α : Type} {P : Event → Prop} {p : Run α} (h : Appends P p) :
    Extends p :=
  appends_mono h (fun _ _ => trivial)

theorem appends_pure {α : Type} {P : Event → Prop} (a : α) : Appends P (pure a : Run α) := by
  intro w
  exact ⟨[], by simp [Result.trace], by simp⟩

theorem appends_bind {α β : Type} {P : Event → Prop} {p : Run α} {k : α → Run β}
    (hp : Appends P p) (hk : ∀ a, Appends P (k a)) : Appends P (p >>= k) := by
  intro w
  obtain ⟨rest, h1, h2⟩ := hp w
  rw [bind_apply]
  cases hpw : p w with
  | ok a w1 =>
    rw [hpw] at h1
    obtain ⟨rest1, h3, h4⟩ := hk a w1
    simp only [Result.trace] at h1
    refine ⟨rest ++ rest1, ?_, ?_⟩
    · simp only [h3, h1, List.append_assoc]
    · intro e he
      rcases List.mem_append.mp he with he | he
      · exact h2 e he
      · exact h4 e he
  | die t =>
    rw [hpw] at h1
    exact ⟨rest, h1, h2⟩
  | undefined t =>
    rw [hpw] at h1
    exact ⟨rest, h1, h2⟩

theorem appends_one {α : Type} {P : Event → Prop} {p : Run α} (e : Event) (he : P e)
    (h : ∀ w, (p w).trace = w.trace ++ [e]) : Appends P p := by
  intro w
  refine ⟨[e], h w, ?_⟩
  intro e1 he1
  rw [List.mem_singleton.mp he1]
  exact he

theorem appends_none {α : Type} {P : Event → Prop} {p : Run α}
    (h : ∀ w, (p w).trace = w.trace) : Appends P p := by
  intro w
  exact ⟨[], by simp [h w], by simp⟩

theorem appends_emit {P : Event → Prop} (e : Event) (he : P e) : Appends P (emit e) :=
  appends_one e he (fun _ => rfl)

theorem appends_sys {P : Event → Prop} (H : Host) (e : Event) (he : P e) :
    Appends P (sys H e) := by
  apply appends_one e he
  intro w
  unfold sys
  split <;> rfl

theorem appends_sys_setenv {P : Event → Prop} (H : Host) (name value : String)
    (he : P (.setenv name value)) : Appends P (sys_setenv H name value) := by
  apply appends_one _ he
  intro w
  unfold sys_setenv
  split <;> rfl

theorem appends_build_string {P : Event → Prop} (parts : List Part) :
    Appends P (build_string parts) := by
  apply appends_none
  intro w
  unfold build_string
  split <;> rfl

theorem appends_run_strcat {P : Event → Prop} (dst src : String) :
    Appends P (run_strcat dst src) := by
  apply appends_none
  intro w
  unfold run_strcat
  split <;> rfl

theorem appends_waitpid {P : Event → Prop} (pid : pid_t) (he : P .waitpid) :
    Appends P (waitpid pid) :=
  appends_one _ he (fun _ => rfl)

theorem appends_sys_getcwd {P : Event → Prop} (H : Host) (he : P .getcwd) :
    Appends P (sys_getcwd H) := by
  apply appends_one _ he
  intro w
  unfold sys_getcwd
  split <;> rfl

theorem appends_sys_execvp {P : Event → Prop} (H : Host) (file : String)
    (argv : List String) (he : P (.execvp file argv)) :
    Appends P (sys_execvp H file argv) :=
  appends_one _ he (fun _ => rfl)

theorem appends_run_get_argv {P : Event → Prop} (H : Host) (s : simple_command_t) :
    Appends P (run_get_argv H s) :=
  appends_none (fun _ => rfl)

theorem appends_shell_cd {P : Event → Prop} (H : Host) (dir : List word_t)
    (he : ∀ path, P (.chdir path)) : Appends P (shell_cd H dir) := by
  intro w
  unfold shell_cd
  split
  · exact ⟨[], by simp [Result.trace], by simp⟩
  · exact ⟨[], by simp [Result.trace], by simp⟩
  · next d =>
    refine ⟨[.chdir d.string], ?_, ?_⟩
    · split <;> rfl
    · intro e he1
      rw [List.mem_singleton.mp he1]
      exact he _

/-- The trace after `fork`: the caller's, then the `fork` entry, then what the
child appends and its `exit`. -/
theorem fork_trace {P : Event → Prop} (H : Host) (child : Run Int) (hc : Appends P child)
    (hexit : ∀ r, P (.exit r)) (w : World) :
    ∃ rest, (fork H child w).trace = w.trace ++ Event.fork :: rest ∧ ∀ e ∈ rest, P e := by
  unfold fork
  split
  · obtain ⟨rest, h1, h2⟩ := hc { w with trace := w.trace ++ [Event.fork] }
    simp only at h1
    split
    · next r1 wc heq =>
      rw [heq] at h1
      simp only [Result.trace] at h1 ⊢
      refine ⟨rest ++ [Event.exit r1], by simp [h1], ?_⟩
      intro e he
      rcases List.mem_append.mp he with he | he
      · exact h2 e he
      · rw [List.mem_singleton.mp he]
        exact hexit r1
    · next t heq =>
      rw [heq] at h1
      simp only [Result.trace] at h1 ⊢
      exact ⟨rest, by simp [h1], h2⟩
    · next t heq =>
      rw [heq] at h1
      simp only [Result.trace] at h1 ⊢
      exact ⟨rest, by simp [h1], h2⟩
  · exact ⟨[], by simp [Result.trace], by simp⟩

theorem appends_fork {P : Event → Prop} (H : Host) (child : Run Int) (hc : Appends P child)
    (hfork : P .fork) (hexit : ∀ r, P (.exit r)) : Appends P (fork H child) := by
  intro w
  obtain ⟨rest, h1, h2⟩ := fork_trace H child hc hexit w
  refine ⟨Event.fork :: rest, h1, ?_⟩
  intro e he
  rcases List.mem_cons.mp he with he | he
  · rw [he]
    exact hfork
  · exact h2 e he

/-! ### The builtins and the redirections append neither a `fork` nor a `setenv` -/

theorem appends_pwd_redirect {P : Event → Prop} (H : Host) (s : simple_command_t)
    (hP : ∀ e, e.is_fork = false → e.is_setenv = false → P e) :
    Appends P (pwd_redirect H s) := by
  unfold pwd_redirect
  split
  · repeat' first
      | apply appends_bind
      | apply appends_build_string
      | (apply appends_sys; exact hP _ rfl rfl)
      | intro _
  · apply appends_pure

theorem appends_pwd_restore {P : Event → Prop} (H : Host) (s : simple_command_t)
    (hP : ∀ e, e.is_fork = false → e.is_setenv = false → P e) :
    Appends P (pwd_restore H s) := by
  unfold pwd_restore
  split
  · repeat' first
      | apply appends_bind
      | (apply appends_sys; exact hP _ rfl rfl)
      | intro _
  · apply appends_pure

theorem appends_shell_pwd {P : Event → Prop} (H : Host) (s : simple_command_t)
    (hP : ∀ e, e.is_fork = false → e.is_setenv = false → P e) :
    Appends P (shell_pwd H s) := by
  unfold shell_pwd
  repeat' first
    | apply appends_bind
    | apply appends_pure
    | (apply appends_emit; exact hP _ rfl rfl)
    | apply appends_run_strcat
    | (apply appends_sys_getcwd; exact hP _ rfl rfl)
    | exact appends_pwd_redirect H s hP
    | exact appends_pwd_restore H s hP
    | intro _

theorem appends_cd_create_out {P : Event → Prop} (H : Host) (s : simple_command_t)
    (hP : ∀ e, e.is_fork = false → e.is_setenv = false → P e) :
    Appends P (cd_create_out H s) := by
  unfold cd_create_out
  split
  · repeat' first
      | apply appends_bind
      | (apply appends_sys; exact hP _ rfl rfl)
      | intro _
  · apply appends_pure

theorem appends_redirect_in {P : Event → Prop} (H : Host) (s : simple_command_t) (fd : Fd)
    (hP : ∀ e, e.is_fork = false → e.is_setenv = false → P e) :
    Appends P (redirect_in H s fd) := by
  unfold redirect_in
  split
  · repeat' first
      | apply appends_bind
      | apply appends_pure
      | (apply appends_sys; exact hP _ rfl rfl)
      | intro _
  · apply appends_pure

theorem appends_redirect_out {P : Event → Prop} (H : Host) (s : simple_command_t) (fd : Fd)
    (m : Nat) (hP : ∀ e, e.is_fork = false → e.is_setenv = false → P e) :
    Appends P (redirect_out H s fd m) := by
  unfold redirect_out
  split
  · repeat' first
      | apply appends_bind
      | apply appends_pure
      | (apply appends_sys; exact hP _ rfl rfl)
      | intro _
  · apply appends_pure

theorem appends_err_open {P : Event → Prop} (H : Host) (s : simple_command_t) (e : word_t)
    (fd : Fd) (m : Nat) (hP : ∀ e, e.is_fork = false → e.is_setenv = false → P e) :
    Appends P (err_open H s e fd m) := by
  unfold err_open
  split
  · exact appends_bind (appends_sys H _ (hP _ rfl rfl)) (fun _ => appends_pure _)
  · apply appends_pure

theorem appends_redirect_err {P : Event → Prop} (H : Host) (s : simple_command_t) (fd : Fd)
    (m : Nat) (hP : ∀ e, e.is_fork = false → e.is_setenv = false → P e) :
    Appends P (redirect_err H s fd m) := by
  unfold redirect_err
  split
  · repeat' first
      | apply appends_bind
      | apply appends_pure
      | (apply appends_sys; exact hP _ rfl rfl)
      | exact appends_err_open H s _ _ _ hP
      | intro _
  · apply appends_pure

theorem appends_redirect_child_process {P : Event → Prop} (H : Host) (s : simple_command_t)
    (hP : ∀ e, e.is_fork = false → e.is_setenv = false → P e) :
    Appends P (redirect_child_process H s) := by
  unfold redirect_child_process
  repeat' first
    | apply appends_bind
    | (apply appends_sys; exact hP _ rfl rfl)
    | exact appends_redirect_in H s _ hP
    | exact appends_redirect_out H s _ _ hP
    | exact appends_redirect_err H s _ _ hP
    | intro _

theorem appends_child_redirect {P : Event → Prop} (H : Host) (s : simple_command_t)
    (hP : ∀ e, e.is_fork = false → e.is_setenv = false → P e) :
    Appends P (child_redirect H s) := by
  unfold child_redirect
  split
  · exact appends_redirect_child_process H s hP
  · apply appends_pure

theorem appends_exec_failed {P : Event → Prop} (s : simple_command_t)
    (hP : ∀ e, e.is_fork = false → e.is_setenv = false → P e) :
    Appends P (exec_failed s) := by
  unfold exec_failed
  repeat' first
    | apply appends_bind
    | apply appends_pure
    | (apply appends_emit; exact hP _ rfl rfl)
    | apply appends_run_strcat
    | intro _

theorem appends_parse_simple_child {P : Event → Prop} (H : Host) (s : simple_command_t)
    (hP : ∀ e, e.is_fork = false → e.is_setenv = false → P e) :
    Appends P (parse_simple_child H s) := by
  unfold parse_simple_child
  apply appends_bind (appends_child_redirect H s hP)
  intro _
  apply appends_bind (appends_run_get_argv H s)
  intro argv
  apply appends_bind (appends_sys_execvp H _ argv (hP _ rfl rfl))
  intro image
  cases image with
  | none => exact appends_exec_failed s hP
  | some status => exact appends_pure status

/-! ### An external command appends no `setenv`, an assignment no `fork` -/

theorem appends_run_external {P : Event → Prop} (H : Host) (s : simple_command_t)
    (hP : ∀ e, e.is_setenv = false → P e) : Appends P (run_external H s) := by
  unfold run_external
  have hchild := appends_parse_simple_child (P := P) H s (fun e _ h => hP e h)
  apply appends_bind (appends_fork H _ hchild (hP _ rfl) (fun _ => hP _ rfl))
  intro pid
  exact appends_waitpid pid (hP _ rfl)

/-- The trace of an external command starts with its `fork`. -/
theorem run_external_trace (H : Host) (s : simple_command_t) (w : World) :
    ∃ rest, (run_external H s w).trace = w.trace ++ Event.fork :: rest := by
  have hchild := appends_parse_simple_child (P := fun _ => True) H s (fun _ _ _ => trivial)
  obtain ⟨rest, h1, _⟩ := fork_trace H _ hchild (fun _ => trivial) w
  unfold run_external
  rw [bind_apply]
  cases hf : fork H (parse_simple_child H s) w with
  | ok pid w1 =>
    rw [hf] at h1
    simp only [Result.trace] at h1
    exact ⟨rest ++ [.waitpid], by simp [waitpid, Result.trace, h1]⟩
  | die t =>
    rw [hf] at h1
    exact ⟨rest, h1⟩
  | undefined t =>
    rw [hf] at h1
    exact ⟨rest, h1⟩

theorem appends_assign {P : Event → Prop} (H : Host) (s : simple_command_t)
    (value_parts : List Part) (hP : ∀ e, e.is_fork = false → P e) :
    Appends P (assign H s value_parts) := by
  unfold assign
  repeat' first
    | apply appends_bind
    | apply appends_pure
    | apply appends_build_string
    | (apply appends_sys_setenv; exact hP _ rfl)
    | intro _

/-! ### The evaluator only appends -/

theorem extends_parse_simple (H : Host) (s : simple_command_t) :
    Extends (parse_simple H s) := by
  have hT : ∀ e : Event, e.is_fork = false → e.is_setenv = false → True :=
    fun _ _ _ => trivial
  unfold parse_simple
  split
  · apply appends_pure
  · split
    · apply appends_bind (appends_cd_create_out H s hT)
      intro _
      apply appends_bind (appends_shell_cd H _ (fun _ => trivial))
      intro changed
      split <;> apply appends_pure
    · split
      · exact appends_shell_pwd H s hT
      · split
        · split
          · exact appends_assign H s _ (fun _ _ => trivial)
          · exact appends_run_external H s (fun _ _ => trivial)
        · exact appends_run_external H s (fun _ _ => trivial)

theorem extends_run_in_sequential {p1 p2 : Run Int} (h1 : Extends p1) (h2 : Extends p2) :
    Extends (run_in_sequential p1 p2) := by
  unfold run_in_sequential
  exact appends_bind h1 (fun _ => h2)

theorem extends_run_in_parallel (H : Host) {p1 p2 : Run Int} (h1 : Extends p1)
    (h2 : Extends p2) : Extends (run_in_parallel H p1 p2) := by
  unfold run_in_parallel
  apply appends_bind (appends_fork H _ h1 trivial (fun _ => trivial))
  intro pid1
  apply appends_bind (appends_fork H _ h2 trivial (fun _ => trivial))
  intro pid2
  apply appends_bind (appends_waitpid pid1 trivial)
  intro status1
  apply appends_bind (appends_waitpid pid2 trivial)
  intro status2
  apply appends_pure

theorem extends_run_if_first_fails {p1 p2 : Run Int} (h1 : Extends p1) (h2 : Extends p2) :
    Extends (run_if_first_fails p1 p2) := by
  unfold run_if_first_fails
  apply appends_bind h1
  intro r
  split
  · apply appends_pure
  · exact h2

theorem extends_run_if_first_succeeds {p1 p2 : Run Int} (h1 : Extends p1)
    (h2 : Extends p2) : Extends (run_if_first_succeeds p1 p2) := by
  unfold run_if_first_succeeds
  apply appends_bind h1
  intro r
  split
  · apply appends_pure
  · exact h2

theorem extends_pipe_child1 (H : Host) {p1 : Run Int} (h1 : Extends p1) :
    Extends (pipe_child1 H p1) := by
  unfold pipe_child1
  repeat' first
    | exact h1
    | apply appends_bind
    | apply appends_pure
    | (apply appends_sys; exact trivial)
    | intro _

theorem extends_pipe_child2 (H : Host) {p2 : Run Int} (h2 : Extends p2) :
    Extends (pipe_child2 H p2) := by
  unfold pipe_child2
  repeat' first
    | exact h2
    | apply appends_bind
    | apply appends_pure
    | (apply appends_sys; exact trivial)
    | intro _

theorem extends_run_on_pipe (H : Host) {p1 p2 : Run Int} (h1 : Extends p1)
    (h2 : Extends p2) : Extends (run_on_pipe H p1 p2) := by
  unfold run_on_pipe
  apply appends_bind (appends_sys H _ trivial)
  intro _
  apply appends_bind
    (appends_fork H _ (extends_pipe_child1 H h1) trivial (fun _ => trivial))
  intro pid1
  apply appends_bind (appends_waitpid pid1 trivial)
  intro _
  apply appends_bind
    (appends_fork H _ (extends_pipe_child2 H h2) trivial (fun _ => trivial))
  intro pid2
  apply appends_bind (appends_sys H _ trivial)
  intro _
  apply appends_bind (appends_sys H _ trivial)
  intro _
  apply appends_bind (appends_waitpid pid2 trivial)
  intro status
  apply appends_pure

/-- What `parse_command` does after its ghost entry, for each operator. -/
theorem extends_node_body (H : Host) (op : operator_t) {p1 p2 : Run Int} (h1 : Extends p1)
    (h2 : Extends p2) :
    Extends (match op with
      | .OP_SEQUENTIAL => run_in_sequential p1 p2
      | .OP_PARALLEL => do
        let both ← run_in_parallel H p1 p2
        pure (bool_to_int both)
      | .OP_CONDITIONAL_NZERO => run_if_first_fails p1 p2
      | .OP_CONDITIONAL_ZERO => run_if_first_succeeds p1 p2
      | .OP_PIPE => do
        let last ← run_on_pipe H p1 p2
        pure (bool_to_int last)
      | .OP_DUMMY => pure H.SHELL_EXIT : Run Int) := by
  cases op with
  | OP_SEQUENTIAL => exact extends_run_in_sequential h1 h2
  | OP_PARALLEL =>
    exact appends_bind (extends_run_in_parallel H h1 h2) (fun _ => appends_pure _)
  | OP_CONDITIONAL_NZERO => exact extends_run_if_first_fails h1 h2
  | OP_CONDITIONAL_ZERO => exact extends_run_if_first_succeeds h1 h2
  | OP_PIPE =>
    exact appends_bind (extends_run_on_pipe H h1 h2) (fun _ => appends_pure _)
  | OP_DUMMY => exact appends_pure _

theorem extends_parse_command (H : Host) (c : command_t) : Extends (parse_command H c) := by
  induction c with
  | simple scmd =>
    unfold parse_command
    exact appends_bind (appends_emit _ trivial) (fun _ => extends_parse_simple H scmd)
  | binary op cmd1 cmd2 ih1 ih2 =>
    unfold parse_command
    exact appends_bind (appends_emit _ trivial) (fun _ => extends_node_body H op ih1 ih2)

/-- Every evaluation leaves its ghost entry: the trace after `parse_command` on
`c` is the trace before it, the entry for `c`, and what follows. -/
theorem parse_command_trace (H : Host) (c : command_t) (w : World) :
    ∃ rest, (parse_command H c w).trace = w.trace ++ Event.parse_command c :: rest := by
  have key : ∀ (k : Run Int), Extends k →
      ∃ rest, ((emit (Event.parse_command c) >>= fun _ => k) w).trace
        = w.trace ++ Event.parse_command c :: rest := by
    intro k hk
    obtain ⟨rest, hrest, _⟩ := hk (entered c w)
    refine ⟨rest, ?_⟩
    have hstep : (emit (Event.parse_command c) >>= fun _ => k) w = k (entered c w) := rfl
    rw [hstep, hrest]
    simp [entered]
  cases c with
  | simple scmd =>
    unfold parse_command
    exact key _ (extends_parse_simple H scmd)
  | binary op cmd1 cmd2 =>
    unfold parse_command
    exact key _
      (extends_node_body H op (extends_parse_command H cmd1) (extends_parse_command H cmd2))

/-! ## The evaluator, one step at a time -/

theorem parse_command_simple (H : Host) (s : simple_command_t) (w : World) :
    parse_command H (.simple s) w = parse_simple H s (entered (.simple s) w) := rfl

theorem parse_command_sequential (H : Host) (cmd1 cmd2 : command_t) (w : World) :
    parse_command H (.binary .OP_SEQUENTIAL cmd1 cmd2) w
      = run_in_sequential (parse_command H cmd1) (parse_command H cmd2)
          (entered (.binary .OP_SEQUENTIAL cmd1 cmd2) w) := rfl

theorem parse_command_conditional_nzero (H : Host) (cmd1 cmd2 : command_t) (w : World) :
    parse_command H (.binary .OP_CONDITIONAL_NZERO cmd1 cmd2) w
      = run_if_first_fails (parse_command H cmd1) (parse_command H cmd2)
          (entered (.binary .OP_CONDITIONAL_NZERO cmd1 cmd2) w) := rfl

theorem parse_command_conditional_zero (H : Host) (cmd1 cmd2 : command_t) (w : World) :
    parse_command H (.binary .OP_CONDITIONAL_ZERO cmd1 cmd2) w
      = run_if_first_succeeds (parse_command H cmd1) (parse_command H cmd2)
          (entered (.binary .OP_CONDITIONAL_ZERO cmd1 cmd2) w) := rfl

theorem run_in_sequential_ok {p1 p2 : Run Int} {w w1 : World} {r : Int}
    (h : p1 w = .ok r w1) : run_in_sequential p1 p2 w = p2 w1 := by
  unfold run_in_sequential
  rw [bind_apply, h]

theorem run_if_first_fails_ok {p1 p2 : Run Int} {w w1 : World} {r : Int}
    (h : p1 w = .ok r w1) :
    run_if_first_fails p1 p2 w = if r = EXIT_SUCCESS then .ok EXIT_SUCCESS w1 else p2 w1 := by
  unfold run_if_first_fails
  rw [bind_apply, h]
  simp only
  split <;> rfl

theorem run_if_first_succeeds_ok {p1 p2 : Run Int} {w w1 : World} {r : Int}
    (h : p1 w = .ok r w1) :
    run_if_first_succeeds p1 p2 w
      = if r = EXIT_FAILURE then .ok EXIT_FAILURE w1 else p2 w1 := by
  unfold run_if_first_succeeds
  rw [bind_apply, h]
  simp only
  split <;> rfl

theorem parse_simple_exit (H : Host) (s : simple_command_t) (w : World) (h : is_exit s) :
    parse_simple H s w = .ok H.SHELL_EXIT w := by
  have h1 : s.verb.string = "exit" ∨ s.verb.string = "quit" := h
  unfold parse_simple
  rw [if_pos h1]
  rfl

/-- After `w1`, `parse_command` is entered on `c` in the run `parse_command H c w1`. -/
theorem evaluated_after_self (H : Host) (c : command_t) (w1 : World) :
    evaluated_after c w1 (parse_command H c w1) := by
  obtain ⟨rest, h⟩ := parse_command_trace H c w1
  unfold evaluated_after
  rw [h]
  simp

/-- Nothing is evaluated in a run that ends where it started. -/
theorem not_evaluated_after_ok {α : Type} (c : command_t) (w1 : World) (a : α) :
    ¬ evaluated_after c w1 (Result.ok a w1) := by
  simp [evaluated_after, Result.trace]

/-! ## What Parallel and Pipe nodes can return -/

theorem parse_command_parallel (H : Host) (cmd1 cmd2 : command_t) (w : World) :
    parse_command H (.binary .OP_PARALLEL cmd1 cmd2) w
      = (do
          let both ← run_in_parallel H (parse_command H cmd1) (parse_command H cmd2)
          pure (bool_to_int both)) (entered (.binary .OP_PARALLEL cmd1 cmd2) w) := rfl

theorem parse_command_pipe (H : Host) (cmd1 cmd2 : command_t) (w : World) :
    parse_command H (.binary .OP_PIPE cmd1 cmd2) w
      = (do
          let last ← run_on_pipe H (parse_command H cmd1) (parse_command H cmd2)
          pure (bool_to_int last)) (entered (.binary .OP_PIPE cmd1 cmd2) w) := rfl

theorem bool_to_int_cases (p : Run Bool) (w w1 : World) (r : Int)
    (h : (do
      let b ← p
      pure (bool_to_int b) : Run Int) w = .ok r w1) : r = 0 ∨ r = 1 := by
  rw [bind_apply] at h
  cases hp : p w with
  | ok b w2 =>
    rw [hp] at h
    simp only [pure_apply] at h
    cases b
    · left
      exact (Result.ok.inj h).1.symm
    · right
      exact (Result.ok.inj h).1.symm
  | die t =>
    rw [hp] at h
    exact absurd h (by simp)
  | undefined t =>
    rw [hp] at h
    exact absurd h (by simp)

/-- A Parallel node returns 0 or 1, never `SHELL_EXIT` and never a status
above 1. -/
theorem parallel_returns_0_or_1 (H : Host) (cmd1 cmd2 : command_t) (w w1 : World) (r : Int)
    (h : parse_command H (.binary .OP_PARALLEL cmd1 cmd2) w = .ok r w1) : r = 0 ∨ r = 1 := by
  rw [parse_command_parallel] at h
  exact bool_to_int_cases _ _ _ _ h

/-- A Pipe node returns 0 or 1, never `SHELL_EXIT` and never a status above
1. -/
theorem pipe_returns_0_or_1 (H : Host) (cmd1 cmd2 : command_t) (w w1 : World) (r : Int)
    (h : parse_command H (.binary .OP_PIPE cmd1 cmd2) w = .ok r w1) : r = 0 ∨ r = 1 := by
  rw [parse_command_pipe] at h
  exact bool_to_int_cases _ _ _ _ h

/-- What `run_in_parallel` returns once both children are forked: `false`
(which `parse_command` returns as 0) as soon as one of the two statuses is
0. -/
theorem run_in_parallel_ok (H : Host) (p1 p2 : Run Int) (w w1 w2 : World)
    (pid1 pid2 : pid_t) (h1 : fork H p1 w = .ok pid1 w1) (h2 : fork H p2 w1 = .ok pid2 w2) :
    run_in_parallel H p1 p2 w
      = .ok (decide (pid1.wexitstatus ≠ 0) && decide (pid2.wexitstatus ≠ 0))
          { w2 with trace := w2.trace ++ [.waitpid, .waitpid] } := by
  unfold run_in_parallel
  rw [bind_apply, h1]
  simp only [bind_apply, h2, waitpid, pure_apply, List.append_assoc, List.singleton_append]

/-! ## Strings, the environment, and the fragment loop -/

theorem utf8ByteSize_append (a b : String) :
    (a ++ b).utf8ByteSize = a.utf8ByteSize + b.utf8ByteSize := by
  cases a with
  | mk as =>
    cases b with
    | mk bs =>
      show (String.mk (as ++ bs)).utf8ByteSize = _
      simp [String.utf8ByteSize_mk, String.utf8Len_append]

theorem getenv_setenv_self (env : List (String × String)) (name value : String) :
    getenv (setenv env name value) name = some value := by
  induction env with
  | nil => simp [setenv, getenv]
  | cons kv rest ih =>
    obtain ⟨k, v⟩ := kv
    unfold setenv
    split
    · next h => simp [getenv, h]
    · next h => simp [getenv, h, ih]

theorem getenv_setenv_other (env : List (String × String)) (name value other : String)
    (h : other ≠ name) : getenv (setenv env name value) other = getenv env other := by
  induction env with
  | nil => simp [setenv, getenv, Ne.symm h]
  | cons kv rest ih =>
    obtain ⟨k, v⟩ := kv
    unfold setenv
    split
    · next hk =>
      have hko : ¬ k = other := fun hh => h (hh.symm.trans hk)
      simp [getenv, hko]
    · next hk => simp [getenv, ih]

/-- The value the loop appends for a fragment is the value of the
specification. -/
theorem fragment_value_eq (env : List (String × String)) (part : Part) :
    (if part.expand = true then (getenv env part.string).getD "" else part.string)
      = part.value env := by
  unfold Part.value
  split
  · cases getenv env part.string <;> rfl
  · rfl

/-- When the resolved value fits the buffer, the loop of lines 193-207 computes
it. -/
theorem concat_parts_eq_resolve (env : List (String × String)) (parts : List Part)
    (buf : String) (h : (buf ++ resolve env parts).utf8ByteSize < MAX_PATH) :
    concat_parts env parts buf = some (buf ++ resolve env parts) := by
  induction parts generalizing buf with
  | nil => simp [concat_parts, resolve]
  | cons part rest ih =>
    unfold concat_parts
    simp only [fragment_value_eq]
    have hassoc : buf ++ resolve env (part :: rest)
        = (buf ++ part.value env) ++ resolve env rest := by
      simp [resolve, String.append_assoc]
    rw [hassoc] at h
    have hfit : (buf ++ part.value env).utf8ByteSize + 1 ≤ MAX_PATH := by
      rw [utf8ByteSize_append] at h
      omega
    unfold strcat
    rw [if_pos hfit]
    simp only
    rw [ih _ h, hassoc]

/-- When the resolved value does not fit the buffer, the loop writes past its
end. -/
theorem concat_parts_overflow (env : List (String × String)) (parts : List Part)
    (buf : String) (h : MAX_PATH ≤ (buf ++ resolve env parts).utf8ByteSize)
    (hbuf : buf.utf8ByteSize < MAX_PATH) :
    concat_parts env parts buf = none := by
  induction parts generalizing buf with
  | nil =>
    simp [resolve] at h
    omega
  | cons part rest ih =>
    unfold concat_parts
    simp only [fragment_value_eq]
    have hassoc : buf ++ resolve env (part :: rest)
        = (buf ++ part.value env) ++ resolve env rest := by
      simp [resolve, String.append_assoc]
    rw [hassoc] at h
    unfold strcat
    by_cases hfit : (buf ++ part.value env).utf8ByteSize + 1 ≤ MAX_PATH
    · rw [if_pos hfit]
      simp only
      exact ih _ h (by omega)
    · rw [if_neg hfit]

/-! ## `parse_simple`, branch by branch -/

theorem parse_simple_cd (H : Host) (s : simple_command_t) (h : s.verb.string = "cd") :
    parse_simple H s = (do
      cd_create_out H s
      let changed ← shell_cd H s.params
      if changed = false then pure EXIT_FAILURE else pure EXIT_SUCCESS) := by
  unfold parse_simple
  have h1 : ¬ (s.verb.string = "exit" ∨ s.verb.string = "quit") := by
    rw [h]
    decide
  rw [if_neg h1, if_pos h]

theorem parse_simple_not_builtin (H : Host) (s : simple_command_t) (h : ¬ is_builtin s) :
    parse_simple H s =
      match s.verb.next_part with
      | eq_part :: value_parts =>
        if eq_part.string = "=" then assign H s value_parts else run_external H s
      | [] => run_external H s := by
  unfold is_builtin at h
  have h1 : ¬ (s.verb.string = "exit" ∨ s.verb.string = "quit") := by tauto
  have h2 : ¬ s.verb.string = "cd" := by tauto
  have h3 : ¬ s.verb.string = "pwd" := by tauto
  unfold parse_simple
  rw [if_neg h1, if_neg h2, if_neg h3]

/-- A builtin appends neither a `fork` nor a `setenv` to the trace. -/
theorem appends_builtin {P : Event → Prop} (H : Host) (s : simple_command_t)
    (h : is_builtin s) (hP : ∀ e, e.is_fork = false → e.is_setenv = false → P e) :
    Appends P (parse_simple H s) := by
  unfold parse_simple
  split
  · apply appends_pure
  · split
    · apply appends_bind (appends_cd_create_out H s hP)
      intro _
      apply appends_bind (appends_shell_cd H _ (fun _ => hP _ rfl rfl))
      intro changed
      split <;> apply appends_pure
    · split
      · exact appends_shell_pwd H s hP
      · next h1 h2 h3 =>
        unfold is_builtin at h
        tauto

theorem forked_after_iff {α : Type} (w : World) (r : Result α) (rest : List Event)
    (h : r.trace = w.trace ++ rest) : forked_after w r ↔ Event.fork ∈ rest := by
  unfold forked_after
  rw [h]
  simp

theorem setenv_after_iff {α : Type} (w : World) (r : Result α) (rest : List Event)
    (h : r.trace = w.trace ++ rest) :
    setenv_after w r ↔ ∃ e ∈ rest, e.is_setenv = true := by
  unfold setenv_after
  rw [h]
  simp

/-- A builtin neither calls `setenv` nor forks. -/
theorem builtin_neither_sets_nor_forks (H : Host) (s : simple_command_t) (w : World)
    (hb : is_builtin s) :
    ¬ setenv_after w (parse_simple H s w) ∧ ¬ forked_after w (parse_simple H s w) := by
  have happ := appends_builtin (P := fun e => e.is_fork = false ∧ e.is_setenv = false)
    H s hb (fun e h1 h2 => ⟨h1, h2⟩)
  obtain ⟨rest, h1, h2⟩ := happ w
  rw [setenv_after_iff w _ rest h1, forked_after_iff w _ rest h1]
  constructor
  · rintro ⟨e, he, hset⟩
    have := (h2 e he).2
    rw [hset] at this
    exact absurd this (by decide)
  · intro hf
    have := (h2 _ hf).1
    exact absurd this (by decide)

/-- The assignment, when the resolved value fits the buffer: the trace gets
the `setenv` entry and nothing else. -/
theorem assign_trace (H : Host) (s : simple_command_t) (value_parts : List Part) (w : World)
    (hfit : (resolve w.env value_parts).utf8ByteSize < MAX_PATH) :
    (assign H s value_parts w).trace
      = w.trace ++ [.setenv s.verb.string (resolve w.env value_parts)] := by
  have hb : build_string value_parts w = .ok (resolve w.env value_parts) w := by
    unfold build_string
    rw [concat_parts_eq_resolve w.env value_parts "" (by simpa using hfit)]
    simp
  unfold assign
  rw [bind_apply, hb]
  simp only [bind_apply]
  unfold sys_setenv
  by_cases hc : s.verb.string ≠ "" ∧ '=' ∉ s.verb.string.data ∧
      H.sys_ok (.setenv s.verb.string (resolve w.env value_parts)) w.trace = true
  · rw [if_pos hc]
    rfl
  · rw [if_neg hc]
    rfl

/-- The assignment, when the resolved value fits the buffer and `setenv`
succeeds. -/
theorem assign_ok (H : Host) (s : simple_command_t) (value_parts : List Part) (w : World)
    (hfit : (resolve w.env value_parts).utf8ByteSize < MAX_PATH)
    (hname : s.verb.string ≠ "" ∧ '=' ∉ s.verb.string.data)
    (hsys : H.sys_ok (.setenv s.verb.string (resolve w.env value_parts)) w.trace = true) :
    assign H s value_parts w
      = .ok EXIT_SUCCESS
          { w with env := setenv w.env s.verb.string (resolve w.env value_parts),
                   trace := w.trace ++ [.setenv s.verb.string (resolve w.env value_parts)] } := by
  have hb : build_string value_parts w = .ok (resolve w.env value_parts) w := by
    unfold build_string
    rw [concat_parts_eq_resolve w.env value_parts "" (by simpa using hfit)]
    simp
  unfold assign
  rw [bind_apply, hb]
  simp only [bind_apply]
  unfold sys_setenv
  rw [if_pos ⟨hname.1, hname.2, hsys⟩]
  rfl

/-- The assignment, when the resolved value does not fit the buffer. -/
theorem assign_overflow (H : Host) (s : simple_command_t) (value_parts : List Part)
    (w : World) (hbig : MAX_PATH ≤ (resolve w.env value_parts).utf8ByteSize) :
    assign H s value_parts w = .undefined w.trace := by
  have hb : build_string value_parts w = .undefined w.trace := by
    unfold build_string
    rw [concat_parts_overflow w.env value_parts "" (by simpa using hbig) (by decide)]
  unfold assign
  rw [bind_apply, hb]

/-! ## The rules the code follows where it departs from the claims -/

/-- The rule of `run_if_first_succeeds`: `cmd2` is evaluated if and only if
the status of `cmd1` is not 1. -/
theorem run_if_first_succeeds_rule (H : Host) (cmd1 cmd2 : command_t) (w w1 : World)
    (s : Int) (h1 : parse_command H cmd1 w = .ok s w1) :
    (evaluated_after cmd2 w1
        (run_if_first_succeeds (parse_command H cmd1) (parse_command H cmd2) w) ↔ s ≠ 1) ∧
    (s = 1 →
      run_if_first_succeeds (parse_command H cmd1) (parse_command H cmd2) w = .ok 1 w1) ∧
    (s ≠ 1 →
      run_if_first_succeeds (parse_command H cmd1) (parse_command H cmd2) w
        = parse_command H cmd2 w1) := by
  rw [run_if_first_succeeds_ok h1]
  by_cases hs : s = 1
  · subst hs
    simp [EXIT_FAILURE, not_evaluated_after_ok]
  · have hs1 : ¬ s = EXIT_FAILURE := hs
    simp [hs1, hs, evaluated_after_self]

/-- The rule of `run_in_parallel`: once both children are forked, it returns
`false` (0 for `parse_command`) if and only if one of the two statuses is 0. -/
theorem run_in_parallel_rule (H : Host) (p1 p2 : Run Int) (w w1 w2 : World)
    (pid1 pid2 : pid_t) (h1 : fork H p1 w = .ok pid1 w1) (h2 : fork H p2 w1 = .ok pid2 w2) :
    (run_in_parallel H p1 p2 w).status = some false ↔
      (pid1.wexitstatus = 0 ∨ pid2.wexitstatus = 0) := by
  rw [run_in_parallel_ok H p1 p2 w w1 w2 pid1 pid2 h1 h2]
  simp only [Result.status, Option.some.injEq, Bool.and_eq_false_iff, decide_eq_false_iff_not,
    ne_eq, not_not]

/-- The rule of `redirect_child_process` for two different sinks, when no call
fails: the sink of the standard output is opened with `O_APPEND` if and only if
`io_flags == IO_OUT_APPEND`, the sink of the standard error if and only if
`io_flags == IO_ERR_APPEND` or `io_flags == IO_OUT_APPEND`. -/
theorem redirect_child_process_rule (H : Host) (s : simple_command_t) (w : World)
    (o e : word_t) (hin : s.in_ = none) (hout : s.out = some o) (herr : s.err = some e)
    (hne : o.string ≠ e.string) (hsys : ∀ ev t, H.sys_ok ev t = true) :
    redirect_child_process H s w
      = .ok () { w with trace := w.trace ++
          [.sys_open o.string
              (if s.io_flags = H.IO_OUT_APPEND then O_WRONLY ||| O_CREAT ||| O_APPEND
                else O_WRONLY ||| O_CREAT ||| O_TRUNC),
            .dup2 (.file o.string) .STDOUT_FILENO,
            .sys_open e.string
              (if s.io_flags = H.IO_ERR_APPEND ∨ s.io_flags = H.IO_OUT_APPEND then
                O_WRONLY ||| O_CREAT ||| O_APPEND
                else O_WRONLY ||| O_CREAT ||| O_TRUNC),
            .dup2 (.file e.string) .STDERR_FILENO,
            .close (.file e.string)] } := by
  by_cases h1 : s.io_flags = H.IO_OUT_APPEND <;> by_cases h2 : s.io_flags = H.IO_ERR_APPEND <;>
    simp [redirect_child_process, redirect_in, redirect_out, redirect_err, err_open,
      err_differs, out_modes, err_modes, sys, hsys, hin, hout, herr, hne, h1, h2]

/-- The bound of 255 bytes on the value of an assignment is sharp: a longer
resolved value is written past the end of `variable_value`. -/
theorem assignment_overflows_when_value_does_not_fit (H : Host) (s : simple_command_t)
    (w : World) (eq_part : Part) (value_parts : List Part) (hverb : ¬ is_builtin s)
    (hparts : s.verb.next_part = eq_part :: value_parts) (heq : eq_part.string = "=")
    (hbig : MAX_PATH ≤ (resolve w.env value_parts).utf8ByteSize) :
    parse_simple H s w = .undefined w.trace := by
  rw [parse_simple_not_builtin H s hverb, hparts]
  simp only [heq, if_true]
  exact assign_overflow H s value_parts w hbig

/-! ## The claims -/

/-! ### C1 -/

/-- C1, as the code has it.  When the evaluation of a tree arrives at an `exit`
or `quit` leaf that is the root, or that is reached through right operands of
Sequential, ConditionalOr and ConditionalAnd nodes only, `parse_command` on the
root returns `SHELL_EXIT`, in the world in which that leaf was entered: nothing
is executed after it. -/
theorem exit_in_tail_position_returns_shell_exit (H : Host) (c : command_t) (w w1 : World)
    (h : ExitReached H c w w1) : parse_command H c w = .ok H.SHELL_EXIT w1 := by
  induction h with
  | leaf s w hs =>
    rw [parse_command_simple]
    exact parse_simple_exit H s _ hs
  | sequential cmd1 cmd2 w w1 w2 r h1 _ ih =>
    rw [parse_command_sequential, run_in_sequential_ok h1]
    exact ih
  | conditional_nzero cmd1 cmd2 w w1 w2 r h1 hr _ ih =>
    rw [parse_command_conditional_nzero, run_if_first_fails_ok h1, if_neg hr]
    exact ih
  | conditional_zero cmd1 cmd2 w w1 w2 r h1 hr _ ih =>
    rw [parse_command_conditional_zero, run_if_first_succeeds_ok h1, if_neg hr]
    exact ih

/-- C1, an instance on `host0`: the tree `true ; (false || exit)`. -/
theorem exit_in_tail_position_returns_shell_exit_witness :
    ExitReached host0 nested_exit w0 w_nested_exit ∧
    parse_command host0 nested_exit w0 = .ok host0.SHELL_EXIT w_nested_exit :=
  have h : ExitReached host0 nested_exit w0 w_nested_exit :=
    ExitReached.sequential (cmd "true" []) false_or_exit w0 w_nested_true w_nested_exit 0
      (by decide!)
      (ExitReached.conditional_nzero (cmd "false" []) (cmd "exit" []) w_nested_true
        w_nested_false w_nested_exit 1 (by decide!) (by decide)
        (ExitReached.leaf (scmd "exit" []) w_nested_false (Or.inl rfl)))
  ⟨h, exit_in_tail_position_returns_shell_exit host0 nested_exit w0 w_nested_exit h⟩

/-- C1 fails on the code.  On `host0` (`SHELL_EXIT` is -100), from `w0`: with
`exit` as the left operand of each of the five operators and `true` as the
right one, `parse_command` on the root returns 0 and the leaf `true` is
entered after the leaf `exit`; with `exit` as the right operand of Parallel and
of Pipe it returns 0 and 1. -/
theorem exit_outside_tail_position_is_not_propagated :
    host0.SHELL_EXIT = -100 ∧
    parse_command host0 (.binary .OP_SEQUENTIAL (cmd "exit" []) (cmd "true" [])) w0
      = .ok 0 ⟨[], "/",
          [.parse_command (.binary .OP_SEQUENTIAL (cmd "exit" []) (cmd "true" [])),
            .parse_command (cmd "exit" []), .parse_command (cmd "true" []), .fork,
            .execvp "true" ["true"], .exit 0, .waitpid]⟩ ∧
    (parse_command host0
      (.binary .OP_CONDITIONAL_NZERO (cmd "exit" []) (cmd "true" [])) w0).status = some 0 ∧
    (parse_command host0
      (.binary .OP_CONDITIONAL_NZERO (cmd "exit" []) (cmd "true" [])) w0).leaves
      = [scmd "exit" [], scmd "true" []] ∧
    (parse_command host0
      (.binary .OP_CONDITIONAL_ZERO (cmd "exit" []) (cmd "true" [])) w0).status = some 0 ∧
    (parse_command host0
      (.binary .OP_CONDITIONAL_ZERO (cmd "exit" []) (cmd "true" [])) w0).leaves
      = [scmd "exit" [], scmd "true" []] ∧
    (parse_command host0 (.binary .OP_PARALLEL (cmd "exit" []) (cmd "true" [])) w0).status
      = some 0 ∧
    (parse_command host0 (.binary .OP_PARALLEL (cmd "exit" []) (cmd "true" [])) w0).leaves
      = [scmd "exit" [], scmd "true" []] ∧
    (parse_command host0 (.binary .OP_PIPE (cmd "exit" []) (cmd "true" [])) w0).status
      = some 0 ∧
    (parse_command host0 (.binary .OP_PIPE (cmd "exit" []) (cmd "true" [])) w0).leaves
      = [scmd "exit" [], scmd "true" []] ∧
    (parse_command host0 (.binary .OP_PARALLEL (cmd "true" []) (cmd "exit" [])) w0).status
      = some 0 ∧
    (parse_command host0 (.binary .OP_PIPE (cmd "true" []) (cmd "exit" [])) w0).status
      = some 1 := by
  decide!

/-! ### C2 -/

/-- C2 fails on the code at the status 2.  On `host0` the program `grep` ends
with the status 2 (a failure) and `run_if_first_succeeds` on `grep && true`
then evaluates `true` and returns its status 0: it compares the status of
`cmd1` with `EXIT_FAILURE` (1) only. -/
theorem run_if_first_succeeds_evaluates_cmd2_after_status_2 :
    parse_command host0 (cmd "grep" []) w0 = .ok 2 w_grep ∧
    run_if_first_succeeds (parse_command host0 (cmd "grep" []))
        (parse_command host0 (cmd "true" [])) w0
      = .ok 0 ⟨[], "/",
          [.parse_command (cmd "grep" []), .fork, .execvp "grep" ["grep"], .exit 2, .waitpid,
            .parse_command (cmd "true" []), .fork, .execvp "true" ["true"], .exit 0,
            .waitpid]⟩ ∧
    evaluated_after (cmd "true" []) w_grep
      (run_if_first_succeeds (parse_command host0 (cmd "grep" []))
        (parse_command host0 (cmd "true" [])) w0) := by
  decide!

/-! ### C3 -/

/-- C3 fails on the code at the statuses 0 and 1.  On `host0`, `run_in_parallel`
on `true & false` returns `false`, which `parse_command` returns as 0
(success), although the second child ends with the status 1: the function
returns `WEXITSTATUS(status1) && WEXITSTATUS(status2)`. -/
theorem run_in_parallel_succeeds_when_one_child_fails :
    run_in_parallel host0 (parse_command host0 (cmd "true" []))
        (parse_command host0 (cmd "false" [])) w0
      = .ok false ⟨[], "/",
          [.fork, .parse_command (cmd "true" []), .fork, .execvp "true" ["true"], .exit 0,
            .waitpid, .exit 0,
            .fork, .parse_command (cmd "false" []), .fork, .execvp "false" ["false"], .exit 1,
            .waitpid, .exit 1,
            .waitpid, .waitpid]⟩ ∧
    (parse_command host0 (.binary .OP_PARALLEL (cmd "true" []) (cmd "false" [])) w0).status
      = some 0 := by
  decide!

/-! ### C4 -/

/-- C4 fails on the code at the status 2.  On `host0`, in `true | grep` the
second child ends with the status 2 and `parse_command` returns 1 for the
node: `run_on_pipe` returns `WEXITSTATUS(status)` as a `bool`. -/
theorem parse_command_pipe_returns_1_for_status_2 :
    parse_command host0 true_pipe_grep w0
      = .ok 1 ⟨[], "/",
          [.parse_command true_pipe_grep, .pipe,
            .fork, .dup .STDOUT_FILENO, .dup2 (.pipe_fd WRITE) .STDOUT_FILENO,
            .close (.pipe_fd READ), .close (.pipe_fd WRITE),
            .parse_command (cmd "true" []), .fork, .execvp "true" ["true"], .exit 0, .waitpid,
            .dup2 (.copy .STDOUT_FILENO) .STDOUT_FILENO, .close (.copy .STDOUT_FILENO),
            .exit 0, .waitpid,
            .fork, .dup .STDIN_FILENO, .dup2 (.pipe_fd READ) .STDIN_FILENO,
            .close (.pipe_fd READ), .close (.pipe_fd WRITE),
            .parse_command (cmd "grep" []), .fork, .execvp "grep" ["grep"], .exit 2, .waitpid,
            .dup2 (.copy .STDIN_FILENO) .STDIN_FILENO, .close (.copy .STDIN_FILENO),
            .exit 2,
            .close (.pipe_fd READ), .close (.pipe_fd WRITE), .waitpid]⟩ := by
  decide!

/-! ### C5 -/

/-- C5. `run_if_first_fails` on `cmd1 || cmd2`, when the evaluation of `cmd1`
returns the status `s` (any status, in particular any of 0..255): `cmd2` is
evaluated if and only if `s` is not 0; when `s = 0` the function returns 0 in
the world `cmd1` left, and otherwise it returns what the evaluation of `cmd2`
from that world returns. -/
theorem run_if_first_fails_evaluates_cmd2_iff_nonzero (H : Host) (cmd1 cmd2 : command_t)
    (w w1 : World) (s : Int) (h1 : parse_command H cmd1 w = .ok s w1) :
    (evaluated_after cmd2 w1
        (run_if_first_fails (parse_command H cmd1) (parse_command H cmd2) w) ↔ s ≠ 0) ∧
    (s = 0 →
      run_if_first_fails (parse_command H cmd1) (parse_command H cmd2) w = .ok 0 w1) ∧
    (s ≠ 0 →
      run_if_first_fails (parse_command H cmd1) (parse_command H cmd2) w
        = parse_command H cmd2 w1) := by
  rw [run_if_first_fails_ok h1]
  by_cases hs : s = 0
  · subst hs
    simp [EXIT_SUCCESS, not_evaluated_after_ok]
  · have hs1 : ¬ s = EXIT_SUCCESS := hs
    simp [hs1, hs, evaluated_after_self]

/-- C5, an instance on `host0`: `false || true`. -/
theorem run_if_first_fails_evaluates_cmd2_iff_nonzero_witness :
    parse_command host0 (cmd "false" []) w0 = .ok 1 w_false ∧
    ((evaluated_after (cmd "true" []) w_false
        (run_if_first_fails (parse_command host0 (cmd "false" []))
          (parse_command host0 (cmd "true" [])) w0) ↔ (1 : Int) ≠ 0) ∧
    ((1 : Int) = 0 →
      run_if_first_fails (parse_command host0 (cmd "false" []))
        (parse_command host0 (cmd "true" [])) w0 = .ok 0 w_false) ∧
    ((1 : Int) ≠ 0 →
      run_if_first_fails (parse_command host0 (cmd "false" []))
        (parse_command host0 (cmd "true" [])) w0
        = parse_command host0 (cmd "true" []) w_false)) :=
  ⟨by decide!,
    run_if_first_fails_evaluates_cmd2_iff_nonzero host0 (cmd "false" []) (cmd "true" []) w0
      w_false 1 (by decide!)⟩

/-! ### C6 -/

/-- C6. `run_in_sequential` on `cmd1 ; cmd2`, when both operands return: the
function returns the status of `cmd2`, whatever the status of `cmd1`, in the
world `cmd2` leaves when started in the world `cmd1` left (the operands run in
the same process, one after the other); the trace is the one before, then the
evaluation of `cmd1`, then the evaluation of `cmd2`, and nothing else: a
process is forked during the node only if one is forked during the evaluation
of `cmd1` or of `cmd2`. -/
theorem run_in_sequential_evaluates_both_in_order (H : Host) (cmd1 cmd2 : command_t)
    (w w1 w2 : World) (r1 r2 : Int)
    (h1 : parse_command H cmd1 w = .ok r1 w1)
    (h2 : parse_command H cmd2 w1 = .ok r2 w2) :
    run_in_sequential (parse_command H cmd1) (parse_command H cmd2) w = .ok r2 w2 ∧
    (∃ t1 t2, w1.trace = w.trace ++ Event.parse_command cmd1 :: t1 ∧
      w2.trace = w1.trace ++ Event.parse_command cmd2 :: t2) ∧
    (forked_after w (run_in_sequential (parse_command H cmd1) (parse_command H cmd2) w) ↔
      forked_after w (parse_command H cmd1 w) ∨
        forked_after w1 (parse_command H cmd2 w1)) := by
  obtain ⟨t1, ht1⟩ := parse_command_trace H cmd1 w
  obtain ⟨t2, ht2⟩ := parse_command_trace H cmd2 w1
  have hrun : run_in_sequential (parse_command H cmd1) (parse_command H cmd2) w
      = .ok r2 w2 := by
    rw [run_in_sequential_ok h1, h2]
  rw [h1] at ht1
  rw [h2] at ht2
  simp only [Result.trace] at ht1 ht2
  refine ⟨hrun, ⟨t1, t2, ht1, ht2⟩, ?_⟩
  have hall : (Result.ok r2 w2 : Result Int).trace
      = w.trace ++ (Event.parse_command cmd1 :: t1 ++ Event.parse_command cmd2 :: t2) := by
    simp only [Result.trace, ht2, ht1, List.append_assoc]
  rw [hrun, h1, h2, forked_after_iff w _ _ hall, forked_after_iff w (Result.ok r1 w1) _ ht1,
    forked_after_iff w1 (Result.ok r2 w2) _ ht2]
  exact List.mem_append

/-- C6, an instance on `host0`: `false ; true` returns 0. -/
theorem run_in_sequential_evaluates_both_in_order_witness :
    parse_command host0 (cmd "false" []) w0 = .ok 1 w_false ∧
    parse_command host0 (cmd "true" []) w_false = .ok 0 w_false_true ∧
    (run_in_sequential (parse_command host0 (cmd "false" []))
        (parse_command host0 (cmd "true" [])) w0 = .ok 0 w_false_true ∧
      (∃ t1 t2, w_false.trace = w0.trace ++ Event.parse_command (cmd "false" []) :: t1 ∧
        w_false_true.trace = w_false.trace ++ Event.parse_command (cmd "true" []) :: t2) ∧
      (forked_after w0 (run_in_sequential (parse_command host0 (cmd "false" []))
          (parse_command host0 (cmd "true" [])) w0) ↔
        forked_after w0 (parse_command host0 (cmd "false" []) w0) ∨
          forked_after w_false (parse_command host0 (cmd "true" []) w_false))) :=
  ⟨by decide!, by decide!,
    run_in_sequential_evaluates_both_in_order host0 (cmd "false" []) (cmd "true" []) w0
      w_false w_false_true 1 0 (by decide!) (by decide!)⟩

/-! ### C7 -/

/-- C7, as the code has it.  For a `cd` command with two or more argument
words, when the creation of the output file of its redirection, if it has one,
does not fail: `parse_simple` returns `EXIT_SUCCESS` (0), issues no `chdir`
(the trace gets only the creation of that file), and leaves the working
directory and the environment unchanged. -/
theorem cd_with_several_arguments_returns_success (H : Host) (s : simple_command_t)
    (w : World) (hcd : s.verb.string = "cd") (hargs : 2 ≤ s.params.length)
    (hsys : ∀ out, s.out = some out →
      H.sys_ok (.sys_open out.string (O_WRONLY ||| O_CREAT ||| O_TRUNC)) w.trace = true ∧
      H.sys_ok (.close (.file out.string))
        (w.trace ++ [.sys_open out.string (O_WRONLY ||| O_CREAT ||| O_TRUNC)]) = true) :
    ∃ w1, parse_simple H s w = .ok EXIT_SUCCESS w1 ∧ EXIT_SUCCESS = 0 ∧
      w1.cwd = w.cwd ∧ w1.env = w.env ∧ w1.trace = w.trace ++ cd_out_trace s := by
  have hcreate : cd_create_out H s w
      = .ok () { w with trace := w.trace ++ cd_out_trace s } := by
    unfold cd_create_out cd_out_trace
    cases hout : s.out with
    | none => simp
    | some out =>
      obtain ⟨h1, h2⟩ := hsys out hout
      simp [sys, h1, h2]
  have hshell : ∀ w1, shell_cd H s.params w1 = .ok true w1 := by
    intro w1
    unfold shell_cd
    match hp : s.params with
    | [] => rfl
    | [d] =>
      rw [hp] at hargs
      simp at hargs
    | _ :: _ :: _ => rfl
  refine ⟨{ w with trace := w.trace ++ cd_out_trace s }, ?_, rfl, rfl, rfl, rfl⟩
  rw [parse_simple_cd H s hcd, bind_apply, hcreate]
  simp only [bind_apply, hshell]
  rfl

/-- C7, an instance on `host0`: `cd a b > f`. -/
theorem cd_with_several_arguments_returns_success_witness :
    cd_a_b_to_f.verb.string = "cd" ∧ 2 ≤ cd_a_b_to_f.params.length ∧
    (∀ out, cd_a_b_to_f.out = some out →
      host0.sys_ok (.sys_open out.string (O_WRONLY ||| O_CREAT ||| O_TRUNC)) w0.trace = true ∧
      host0.sys_ok (.close (.file out.string))
        (w0.trace ++ [.sys_open out.string (O_WRONLY ||| O_CREAT ||| O_TRUNC)]) = true) ∧
    ∃ w1, parse_simple host0 cd_a_b_to_f w0 = .ok EXIT_SUCCESS w1 ∧ EXIT_SUCCESS = 0 ∧
      w1.cwd = w0.cwd ∧ w1.env = w0.env ∧ w1.trace = w0.trace ++ cd_out_trace cd_a_b_to_f :=
  ⟨rfl, by decide, fun _ _ => ⟨rfl, rfl⟩,
    cd_with_several_arguments_returns_success host0 cd_a_b_to_f w0 rfl (by decide)
      (fun _ _ => ⟨rfl, rfl⟩)⟩

/-- C7 fails on the code.  On `host0`, `cd a b` returns 0 (success), not a
failure status; the world is unchanged. -/
theorem cd_with_two_arguments_does_not_fail :
    (scmd "cd" ["a", "b"]).params.length = 2 ∧
    parse_simple host0 (scmd "cd" ["a", "b"]) w0 = .ok 0 w0 := by
  decide!

/-! ### C8 -/

/-- C8, as the code has it.  For an assignment command `NAME=VALUE` (the first
fragment of the verb is no builtin name, the second is `=`) whose resolved
value is shorter than `MAX_PATH` (at most 255 bytes) and whose `setenv` call
succeeds (`NAME` is not empty and holds no `=`): `parse_simple` returns 0 and
the environment then maps `NAME` to the concatenation, in order, of the values
the fragments of `VALUE` have in the environment before the assignment, and
every other name to what it had. -/
theorem assignment_sets_variable_when_value_fits (H : Host) (s : simple_command_t)
    (w : World) (eq_part : Part) (value_parts : List Part)
    (hverb : ¬ is_builtin s)
    (hparts : s.verb.next_part = eq_part :: value_parts)
    (heq : eq_part.string = "=")
    (hfit : (resolve w.env value_parts).utf8ByteSize < MAX_PATH)
    (hname : s.verb.string ≠ "" ∧ '=' ∉ s.verb.string.data)
    (hsys : H.sys_ok (.setenv s.verb.string (resolve w.env value_parts)) w.trace = true) :
    parse_simple H s w
      = .ok 0
          { w with env := setenv w.env s.verb.string (resolve w.env value_parts),
                   trace := w.trace ++ [.setenv s.verb.string (resolve w.env value_parts)] } ∧
    getenv (setenv w.env s.verb.string (resolve w.env value_parts)) s.verb.string
      = some (resolve w.env value_parts) ∧
    ∀ other, other ≠ s.verb.string →
      getenv (setenv w.env s.verb.string (resolve w.env value_parts)) other
        = getenv w.env other := by
  refine ⟨?_, getenv_setenv_self _ _ _, fun other h => getenv_setenv_other _ _ _ _ h⟩
  rw [parse_simple_not_builtin H s hverb, hparts]
  simp only [heq, if_true]
  exact assign_ok H s value_parts w hfit hname hsys

/-- C8, an instance on `host0`: `X=x$X$Y` where `X` is `1` and `Y` is not set. -/
theorem assignment_sets_variable_when_value_fits_witness :
    ¬ is_builtin assign_x ∧
    assign_x.verb.next_part = ⟨"=", false⟩ :: [⟨"x", false⟩, ⟨"X", true⟩, ⟨"Y", true⟩] ∧
    (⟨"=", false⟩ : Part).string = "=" ∧
    (resolve w_x.env [⟨"x", false⟩, ⟨"X", true⟩, ⟨"Y", true⟩]).utf8ByteSize < MAX_PATH ∧
    (assign_x.verb.string ≠ "" ∧ '=' ∉ assign_x.verb.string.data) ∧
    host0.sys_ok (.setenv assign_x.verb.string
      (resolve w_x.env [⟨"x", false⟩, ⟨"X", true⟩, ⟨"Y", true⟩])) w_x.trace = true ∧
    resolve w_x.env [⟨"x", false⟩, ⟨"X", true⟩, ⟨"Y", true⟩] = "x1" ∧
    (parse_simple host0 assign_x w_x
      = .ok 0
          { w_x with
            env := setenv w_x.env assign_x.verb.string
              (resolve w_x.env [⟨"x", false⟩, ⟨"X", true⟩, ⟨"Y", true⟩]),
            trace := w_x.trace ++ [.setenv assign_x.verb.string
              (resolve w_x.env [⟨"x", false⟩, ⟨"X", true⟩, ⟨"Y", true⟩])] } ∧
    getenv (setenv w_x.env assign_x.verb.string
        (resolve w_x.env [⟨"x", false⟩, ⟨"X", true⟩, ⟨"Y", true⟩])) assign_x.verb.string
      = some (resolve w_x.env [⟨"x", false⟩, ⟨"X", true⟩, ⟨"Y", true⟩]) ∧
    ∀ other, other ≠ assign_x.verb.string →
      getenv (setenv w_x.env assign_x.verb.string
        (resolve w_x.env [⟨"x", false⟩, ⟨"X", true⟩, ⟨"Y", true⟩])) other
        = getenv w_x.env other) :=
  ⟨by unfold is_builtin; decide!, rfl, rfl, by decide!, by decide!, rfl, by decide!,
    assignment_sets_variable_when_value_fits host0 assign_x w_x ⟨"=", false⟩
      [⟨"x", false⟩, ⟨"X", true⟩, ⟨"Y", true⟩] (by unfold is_builtin; decide!) rfl rfl
      (by decide!) (by decide!) rfl⟩

/-- C8 fails on the code.  On `host0`, for the assignment of a value of 256
bytes to `X`, the `strcat` of line 203 writes past the end of
`variable_value[MAX_PATH]`: the behaviour is undefined, nothing is set.  And
`quit=x` sets nothing either: it is run as the builtin `quit`. -/
theorem assignment_of_256_bytes_overflows :
    long_value.utf8ByteSize = 256 ∧
    parse_simple host0 assign_long w0 = .undefined [] ∧
    quit_equals_x.verb.next_part = [⟨"=", false⟩, ⟨"x", false⟩] ∧
    parse_simple host0 quit_equals_x w0 = .ok host0.SHELL_EXIT w0 := by
  decide!

/-! ### C9 -/

/-- C9, as the code has it.  For every simple command: when its second verb
fragment is not an expansion named `=`, and, if that fragment is named `=`, the
value (the fragments after it) fits the buffer, `parse_simple` treats the
command as an assignment (it calls `setenv` and forks no process) if and only
if the first fragment of the verb is none of `exit`, `quit`, `cd`, `pwd` and
the second fragment is the literal `=`.  And, for every simple command whose
first verb fragment is one of these four names, `parse_simple` neither calls
`setenv` nor forks, whatever follows the name. -/
theorem parse_simple_assigns_iff_not_builtin_and_literal_eq (H : Host)
    (s : simple_command_t) (w : World) :
    ((∀ p ps, s.verb.next_part = p :: ps → p.string = "=" → p.expand = false) →
      (∀ p ps, s.verb.next_part = p :: ps → p.string = "=" →
        (resolve w.env ps).utf8ByteSize < MAX_PATH) →
      ((setenv_after w (parse_simple H s w) ∧ ¬ forked_after w (parse_simple H s w)) ↔
        (¬ is_builtin s ∧
          ∃ value_parts, s.verb.next_part = ⟨"=", false⟩ :: value_parts))) ∧
    (is_builtin s →
      ¬ setenv_after w (parse_simple H s w) ∧ ¬ forked_after w (parse_simple H s w)) := by
  refine ⟨?_, builtin_neither_sets_nor_forks H s w⟩
  intro hlit hfit
  by_cases hb : is_builtin s
  · have hno := (builtin_neither_sets_nor_forks H s w hb).1
    constructor
    · rintro ⟨hset, _⟩
      exact absurd hset hno
    · rintro ⟨hnb, _⟩
      exact absurd hb hnb
  · rw [parse_simple_not_builtin H s hb]
    have hext : ¬ (setenv_after w (run_external H s w) ∧
        ¬ forked_after w (run_external H s w)) := by
      obtain ⟨rest, h1⟩ := run_external_trace H s w
      rw [forked_after_iff w _ _ h1]
      simp
    match hp : s.verb.next_part with
    | [] =>
      simp only
      constructor
      · intro h
        exact absurd h hext
      · rintro ⟨_, vs, hvs⟩
        exact absurd hvs (by simp)
    | p :: ps =>
      simp only
      by_cases heq : p.string = "="
      · rw [if_pos heq]
        have hpl := hlit p ps hp heq
        have hp2 : p = ⟨"=", false⟩ := by
          cases p
          simp_all
        have htr := assign_trace H s ps w (hfit p ps hp heq)
        rw [setenv_after_iff w _ _ htr, forked_after_iff w _ _ htr]
        constructor
        · intro _
          exact ⟨hb, ps, by rw [hp2]⟩
        · intro _
          constructor
          · exact ⟨_, List.mem_singleton.mpr rfl, rfl⟩
          · simp
      · rw [if_neg heq]
        constructor
        · intro h
          exact absurd h hext
        · rintro ⟨_, vs, hvs⟩
          have : p = ⟨"=", false⟩ := (List.cons.inj hvs).1
          rw [this] at heq
          exact absurd rfl heq

/-- C9, instances on `host0`: `X=x` is an assignment, `true$X` (second fragment
an expansion, not named `=`) is not, and `cd=x` neither calls `setenv` nor
forks. -/
theorem parse_simple_assigns_iff_not_builtin_and_literal_eq_witness :
    ((setenv_after w0 (parse_simple host0 x_equals_x w0) ∧
        ¬ forked_after w0 (parse_simple host0 x_equals_x w0)) ∧
      (¬ is_builtin x_equals_x ∧
        ∃ value_parts, x_equals_x.verb.next_part = ⟨"=", false⟩ :: value_parts)) ∧
    (¬ (setenv_after w0 (parse_simple host0 true_dollar_x w0) ∧
        ¬ forked_after w0 (parse_simple host0 true_dollar_x w0)) ∧
      ¬ (¬ is_builtin true_dollar_x ∧
        ∃ value_parts, true_dollar_x.verb.next_part = ⟨"=", false⟩ :: value_parts)) ∧
    (is_builtin cd_equals_x ∧
      ¬ setenv_after w0 (parse_simple host0 cd_equals_x w0) ∧
      ¬ forked_after w0 (parse_simple host0 cd_equals_x w0)) :=
  have hlit1 : ∀ p ps, x_equals_x.verb.next_part = p :: ps → p.string = "=" →
      p.expand = false := by
    intro p ps h _
    have h1 : (⟨"=", false⟩ : Part) = p := (List.cons.inj h).1
    rw [← h1]
  have hfit1 : ∀ p ps, x_equals_x.verb.next_part = p :: ps → p.string = "=" →
      (resolve w0.env ps).utf8ByteSize < MAX_PATH := by
    intro p ps h _
    have h1 : [(⟨"x", false⟩ : Part)] = ps := (List.cons.inj h).2
    rw [← h1]
    decide!
  have hne : ∀ p ps, true_dollar_x.verb.next_part = p :: ps → ¬ p.string = "=" := by
    intro p ps h
    have h1 : (⟨"X", true⟩ : Part) = p := (List.cons.inj h).1
    rw [← h1]
    decide
  have hrhs1 : ¬ is_builtin x_equals_x ∧
      ∃ value_parts, x_equals_x.verb.next_part = ⟨"=", false⟩ :: value_parts :=
    ⟨by unfold is_builtin; decide!, [⟨"x", false⟩], rfl⟩
  have hrhs2 : ¬ (¬ is_builtin true_dollar_x ∧
      ∃ value_parts, true_dollar_x.verb.next_part = ⟨"=", false⟩ :: value_parts) := by
    rintro ⟨_, vs, hvs⟩
    exact hne _ _ hvs rfl
  have hcd : is_builtin cd_equals_x := Or.inr (Or.inr (Or.inl rfl))
  ⟨⟨((parse_simple_assigns_iff_not_builtin_and_literal_eq host0 x_equals_x w0).1
        hlit1 hfit1).mpr hrhs1, hrhs1⟩,
    ⟨fun h => hrhs2
        (((parse_simple_assigns_iff_not_builtin_and_literal_eq host0 true_dollar_x w0).1
          (fun p ps h hs => absurd hs (hne p ps h))
          (fun p ps h hs => absurd hs (hne p ps h))).mp h), hrhs2⟩,
    ⟨hcd, (parse_simple_assigns_iff_not_builtin_and_literal_eq host0 cd_equals_x w0).2 hcd⟩⟩

/-- C9 fails on the code.  On `host0`, the commands `cd=x` and `exit=x` have
the literal `=` as the second fragment of their verb and are run as the
builtins `cd` and `exit`: no `setenv` is called, the environment is
unchanged. -/
theorem builtin_name_before_equals_is_not_an_assignment :
    cd_equals_x.verb.next_part = [⟨"=", false⟩, ⟨"x", false⟩] ∧
    parse_simple host0 cd_equals_x w0 = .ok 0 w0 ∧
    exit_equals_x.verb.next_part = [⟨"=", false⟩, ⟨"x", false⟩] ∧
    parse_simple host0 exit_equals_x w0 = .ok host0.SHELL_EXIT w0 := by
  decide!

/-! ### C10 -/

/-- C10 fails on the code.  On `host0` (`IO_OUT_APPEND` is 1, `IO_ERR_APPEND`
is 2): with both append flags set, `redirect_child_process` opens both sinks
with `O_TRUNC`; with the append flag of the standard output alone, it opens
the sink of the standard error with `O_APPEND` too. -/
theorem redirect_child_process_append_flags_not_independent :
    append_both.io_flags &&& host0.IO_OUT_APPEND ≠ 0 ∧
    append_both.io_flags &&& host0.IO_ERR_APPEND ≠ 0 ∧
    redirect_child_process host0 append_both w0
      = .ok () ⟨[], "/",
          [.sys_open "o" (O_WRONLY ||| O_CREAT ||| O_TRUNC),
            .dup2 (.file "o") .STDOUT_FILENO,
            .sys_open "e" (O_WRONLY ||| O_CREAT ||| O_TRUNC),
            .dup2 (.file "e") .STDERR_FILENO, .close (.file "e")]⟩ ∧
    append_out_only.io_flags &&& host0.IO_ERR_APPEND = 0 ∧
    redirect_child_process host0 append_out_only w0
      = .ok () ⟨[], "/",
          [.sys_open "o" (O_WRONLY ||| O_CREAT ||| O_APPEND),
            .dup2 (.file "o") .STDOUT_FILENO,
            .sys_open "e" (O_WRONLY ||| O_CREAT ||| O_APPEND),
            .dup2 (.file "e") .STDERR_FILENO, .close (.file "e")]⟩ := by
  decide!

end MiniShell
